import Mathlib

/-!
meetnrun: database bootstrap and migration runner.

A shallow embedding of `server/cmd/server/server.go` and
`server/tool/migrate/migrate.go`.

Both programs are straight-line code around calls into external libraries
(environment parsing, the SQL driver, the migration engine).  The code of this
repository is embedded as pure functions that return the ordered list of
observable events (engine calls with their answers, log entries, driver
calls) together with the final state of the external engine.  The external
engine is a parameter (`Engine`): the handler is embedded once, for every
engine.
-/

set_option autoImplicit false

namespace MeetNRun

/-! ## Errors -/

/-- Go `error` values as far as the program distinguishes them: the two
sentinel errors of the migration engine, any other error, and an error that
wraps another one. -/
inductive GoError where
  | ErrNilVersion : GoError
  | ErrNoChange : GoError
  | other (msg : String) : GoError
  | wrap (msg : String) (inner : GoError) : GoError
  deriving DecidableEq

/-- Go `errors.Is(err, target)`: `err` or an error in its chain is `target`. -/
def errorsIs : GoError → GoError → Bool
  | GoError.wrap msg inner, target =>
      decide (GoError.wrap msg inner = target) || errorsIs inner target
  | err, target => decide (err = target)

/-! ## Events -/

/-- Log levels of zerolog used by the program. `fatal` ends the process. -/
inductive Level where
  | info : Level
  | error : Level
  | fatal : Level
  deriving DecidableEq

/-- One log entry: level, message, the attached error (`.Err(err)`), and the
`version` / `dirty` fields when the entry carries them. -/
structure LogEntry where
  level : Level
  msg : String
  err : Option GoError
  state : Option (Nat × Bool)
  deriving DecidableEq

/-- What `(*migrate.Migrate).Version` hands back: `(version, dirty, err)`. -/
structure VersionResult where
  version : Nat
  dirty : Bool
  err : Option GoError
  deriving DecidableEq

/-- The two operations of the handler. -/
inductive Direction where
  | up : Direction
  | down : Direction
  deriving DecidableEq

/-- Observable events of a run, in the order in which they happen. An engine
call is recorded with the answer the handler got (a version query: as
`getVersion` returns it); `run dir` marks the call of `mh.Up()` or
`mh.Down()` by `main`. -/
inductive Event where
  | version (res : VersionResult) : Event
  | steps (n : Int) (err : Option GoError) : Event
  | up (err : Option GoError) : Event
  | down (err : Option GoError) : Event
  | log (entry : LogEntry) : Event
  | sqlxOpen (driver dsn : String) : Event
  | setConnMaxLifetime (minutes : Nat) : Event
  | setMaxOpenConns (n : Nat) : Event
  | setMaxIdleConns (n : Nat) : Event
  | ping : Event
  | withInstance : Event
  | newWithDatabaseInstance (sourceURL dbname : String) : Event
  | flagParse : Event
  | run (dir : Direction) : Event
  deriving DecidableEq

/-- Go `log.Error().Err(err).Caller().Msg(msg)`. -/
def logError (err : GoError) (msg : String) : Event :=
  Event.log ⟨Level.error, msg, some err, none⟩

/-- Go `log.Fatal().Err(err).Msg(msg)`. -/
def logFatal (err : GoError) (msg : String) : Event :=
  Event.log ⟨Level.fatal, msg, some err, none⟩

/-- Go `log.Info().Uint("version", v).Bool("dirty", d).Msg(msg)`. -/
def logState (v : Nat) (d : Bool) (msg : String) : Event :=
  Event.log ⟨Level.info, msg, none, some (v, d)⟩

/-- Go `log.Info().Msg(msg)`. -/
def logInfo (msg : String) : Event :=
  Event.log ⟨Level.info, msg, none, none⟩

/-! ## The migration engine, as the handler sees it -/

/-- The four operations of `*migrate.Migrate` the handler calls, over an
engine state `σ` (the database and the migration source). Each operation
answers and leaves a next state. -/
structure Engine (σ : Type) where
  Version : σ → VersionResult × σ
  Steps : Int → σ → Option GoError × σ
  Up : σ → Option GoError × σ
  Down : σ → Option GoError × σ

/-- Result of a handler run: the events, oldest first, and the engine state
it leaves. -/
structure Run (σ : Type) where
  trace : List Event
  engine : σ

/-- Put earlier events in front of a run. -/
def Run.after {σ : Type} (evs : List Event) (r : Run σ) : Run σ :=
  ⟨evs ++ r.trace, r.engine⟩

namespace MigrateHandler

variable {σ : Type}

/-- Go `MigrateHandler.getVersion`: `(0, false, err)` when the engine reports
an error, the engine's answer otherwise. -/
def getVersion (E : Engine σ) (s : σ) : VersionResult × σ :=
  match E.Version s with
  | (res, s1) =>
    match res.err with
    | some err => (⟨0, false, some err⟩, s1)
    | none => (⟨res.version, res.dirty, none⟩, s1)

/-- The second version query of `MigrateHandler.Up` and its final report
(lines 81-91); `version` is the version read by the first query. -/
def upReport (E : Engine σ) (version : Nat) (s1 : σ) : Run σ :=
  match getVersion E s1 with
  | (res, s2) =>
    Run.after [Event.version res] <|
      match res.err with
      | some err => ⟨[logError err "Error getting new migration version"], s2⟩
      | none =>
        if res.version > version then
          ⟨[logState res.version res.dirty "Successfully migrated"], s2⟩
        else ⟨[logInfo "Nothing to migrate"], s2⟩

/-- Go `MigrateHandler.Up` from the log of the current state on (lines 73-91),
with `version` and `dirty` as read by the first query. -/
def upFrom (E : Engine σ) (version : Nat) (dirty : Bool) (s : σ) : Run σ :=
  match E.Up s with
  | (upErr, s1) =>
    Run.after [logState version dirty "Got current migration state", Event.up upErr] <|
      match upErr with
      | some err =>
        if errorsIs err GoError.ErrNoChange then upReport E version s1
        else ⟨[logError err "Error migrating up"], s1⟩
      | none => upReport E version s1

/-- Go `MigrateHandler.Up`. -/
def Up (E : Engine σ) (s : σ) : Run σ :=
  match getVersion E s with
  | (res, s1) =>
    Run.after [Event.version res] <|
      match res.err with
      | some err =>
        if errorsIs err GoError.ErrNilVersion then
          match E.Steps 1 s1 with
          | (some stepErr, s2) =>
            ⟨[Event.steps 1 (some stepErr),
              logError stepErr "Error initializing first migration"], s2⟩
          | (none, s2) =>
            Run.after [Event.steps 1 none] (upFrom E res.version res.dirty s2)
        else ⟨[logError err "Error getting migration version"], s1⟩
      | none => upFrom E res.version res.dirty s1

/-- The final report of `MigrateHandler.Down` (lines 123-127); `version` is
the version read by the first query, `res` the answer to the second. -/
def downFinal (version : Nat) (res : VersionResult) (s2 : σ) : Run σ :=
  if res.version < version then
    ⟨[logState res.version res.dirty "Successfully migrated"], s2⟩
  else ⟨[logInfo "Nothing to migrate"], s2⟩

/-- The second version query of `MigrateHandler.Down` and what follows
(lines 117-127). -/
def downReport (E : Engine σ) (version : Nat) (s1 : σ) : Run σ :=
  match getVersion E s1 with
  | (res, s2) =>
    Run.after [Event.version res] <|
      match res.err with
      | some err =>
        if errorsIs err GoError.ErrNilVersion then downFinal version res s2
        else ⟨[logError err "Error getting new migration version"], s2⟩
      | none => downFinal version res s2

/-- Go `MigrateHandler.Down` from the log of the current state on (lines
109-127), with `version` and `dirty` as read by the first query. -/
def downFrom (E : Engine σ) (version : Nat) (dirty : Bool) (s : σ) : Run σ :=
  match E.Down s with
  | (downErr, s1) =>
    Run.after [logState version dirty "Got current migration state", Event.down downErr] <|
      match downErr with
      | some err =>
        if errorsIs err GoError.ErrNoChange then downReport E version s1
        else ⟨[logError err "Error migrating down"], s1⟩
      | none => downReport E version s1

/-- Go `MigrateHandler.Down`. -/
def Down (E : Engine σ) (s : σ) : Run σ :=
  match getVersion E s with
  | (res, s1) =>
    Run.after [Event.version res] <|
      match res.err with
      | some err =>
        if errorsIs err GoError.ErrNilVersion then
          match E.Steps 1 s1 with
          | (some stepErr, s2) =>
            ⟨[Event.steps 1 (some stepErr),
              logError stepErr "Error initializing first migration"], s2⟩
          | (none, s2) =>
            Run.after [Event.steps 1 none] (downFrom E res.version res.dirty s2)
        else ⟨[logError err "Error getting migration version"], s1⟩
      | none => downFrom E res.version res.dirty s1

end MigrateHandler

/-! ## Configuration loading -/

/-- The process environment: names with their values. -/
abbrev Environ := List (String × String)

/-- Go `os.LookupEnv`. -/
def lookupEnv (env : Environ) (key : String) : Option String :=
  env.lookup key

/-- Go `os.Getenv`: the empty string when the variable is not set. -/
def getenv (env : Environ) (key : String) : String :=
  (lookupEnv env key).getD ""

/-- Go `godotenv.Load()` (its error is dropped by both programs): when a `.env`
file is readable, each of its variables that the environment does not have
yet is set, to the last value the file gives it; variables already present
keep their value. -/
def godotenvLoad (dotenv : Option Environ) (env : Environ) : Environ :=
  match dotenv with
  | none => env
  | some kvs => env ++ kvs.reverse.filter fun kv => (lookupEnv env kv.1).isNone

/-- A struct tag of the `env` library, read: the variable name, whether the
tag carries the `,required` option, and the `envDefault` tag (empty when
there is none). -/
structure FieldTag where
  key : String
  required : Bool
  envDefault : String

/-- A tag `env:"KEY"` as the program writes all of its tags: a name, no
option, no default. -/
def plainTag (key : String) : FieldTag :=
  ⟨key, false, ""⟩

/-- The `env` library's lookup for one field: the variable's value, or the
default when it is not set; with the `required` option a variable that is
not set is an error. -/
def envGet (env : Environ) (t : FieldTag) : Except String String :=
  if t.required then
    match lookupEnv env t.key with
    | some v => Except.ok v
    | none =>
      Except.error ("env: required environment variable \"" ++ t.key ++ "\" is not set")
  else Except.ok ((lookupEnv env t.key).getD t.envDefault)

/-- One field of the `env` library's `Parse` for a string field holding
`cur`: the new content of the field and the error messages added. An empty
value leaves the field as it is. -/
def parseField (env : Environ) (t : FieldTag) (cur : String) : String × List String :=
  match envGet env t with
  | Except.error e => (cur, [e])
  | Except.ok v => if v = "" then (cur, []) else (v, [])

/-- Go `App` (the same struct in both programs). -/
structure App where
  MeetNRunDatabaseUser : String
  MeetNRunDatabasePassword : String
  MeetNRunDatabaseDatabase : String
  MeetNRunDatabaseHost : String
  MeetNRunDatabasePort : String
  deriving DecidableEq

/-- The tags of `App`, one per field, in the order of the fields. -/
structure AppTags where
  user : FieldTag
  password : FieldTag
  database : FieldTag
  host : FieldTag
  port : FieldTag

/-- The tags of `App` as written in both programs. -/
def App.tags : AppTags where
  user := plainTag "MEETNRUN_DATABASE_USER"
  password := plainTag "MEETNRUN_DATABASE_PASSWORD"
  database := plainTag "MEETNRUN_DATABASE_DATABASE"
  host := plainTag "MEETNRUN_DATABASE_HOST"
  port := plainTag "MEETNRUN_DATABASE_PORT"

/-- Go `var app = App{}`. -/
def App.zero : App :=
  ⟨"", "", "", "", ""⟩

/-- Go `env.Parse(&app)` for a struct with the fields of `App` tagged `tags`:
every field is looked up in turn; the error messages are collected and
joined, and there is an error exactly when one was collected. -/
def envParse (tags : AppTags) (env : Environ) (app : App) : Option GoError × App :=
  let u := parseField env tags.user app.MeetNRunDatabaseUser
  let p := parseField env tags.password app.MeetNRunDatabasePassword
  let d := parseField env tags.database app.MeetNRunDatabaseDatabase
  let h := parseField env tags.host app.MeetNRunDatabaseHost
  let q := parseField env tags.port app.MeetNRunDatabasePort
  let errs := u.2 ++ p.2 ++ d.2 ++ h.2 ++ q.2
  (if errs = [] then none else some (GoError.other (". ".intercalate errs)),
   ⟨u.1, p.1, d.1, h.1, q.1⟩)

/-- The configuration in which each field holds the value of its variable,
and the empty string when the variable is not set. -/
def App.ofEnv (env : Environ) : App where
  MeetNRunDatabaseUser := getenv env "MEETNRUN_DATABASE_USER"
  MeetNRunDatabasePassword := getenv env "MEETNRUN_DATABASE_PASSWORD"
  MeetNRunDatabaseDatabase := getenv env "MEETNRUN_DATABASE_DATABASE"
  MeetNRunDatabaseHost := getenv env "MEETNRUN_DATABASE_HOST"
  MeetNRunDatabasePort := getenv env "MEETNRUN_DATABASE_PORT"

/-- The `fmt.Sprintf` that builds the DSN. -/
def dsnOf (app : App) : String :=
  "host=" ++ app.MeetNRunDatabaseHost ++ " port=" ++ app.MeetNRunDatabasePort ++
  " user=" ++ app.MeetNRunDatabaseUser ++ " password=" ++ app.MeetNRunDatabasePassword ++
  " dbname=" ++ app.MeetNRunDatabaseDatabase ++ " sslmode=disable"

/-! ## The two programs -/

/-- Everything outside the program that a run depends on, the migration
engine apart: the environment, the `.env` file when there is one, the
answers of the SQL driver and of the two constructors of the migration
library, and the arguments of the command line (`os.Args[1:]`). -/
structure World where
  environ : Environ
  dotenv : Option Environ
  openErr : String → Option GoError
  pingErr : Option GoError
  withInstanceErr : Option GoError
  newInstanceErr : Option GoError
  args : List String

/-- The environment of the process once `godotenv.Load()` has run. -/
def processEnv (w : World) : Environ :=
  godotenvLoad w.dotenv w.environ

/-- How the process ends: `main` returns, `log.Fatal` ends it, or
`flag.Parse` ends it (on a command line it rejects, or after `-h`). -/
inductive Exit where
  | normal : Exit
  | fatal : Exit
  | flagExit : Exit
  deriving DecidableEq

/-- The part both `main` functions share (server.go lines 25-51, migrate.go
lines 147-173): the events, and either the fatal end or the environment and
the configuration with which `main` goes on. -/
def bootstrap (w : World) : List Event × Option (Environ × App) :=
  let env := processEnv w
  match envParse App.tags env App.zero with
  | (some err, _) => ([logFatal err "could not parse environment variables"], none)
  | (none, app) =>
    let dsn := dsnOf app
    match w.openErr dsn with
    | some err =>
      ([Event.sqlxOpen "postgres" dsn,
        logFatal err "could not open database connection"], none)
    | none =>
      let pool := [Event.sqlxOpen "postgres" dsn, Event.setConnMaxLifetime 3,
        Event.setMaxOpenConns 25, Event.setMaxIdleConns 25, Event.ping]
      match w.pingErr with
      | some err => (pool ++ [logFatal err "could not reach database"], none)
      | none => (pool, some (env, app))

/-- Result of a program run. -/
structure Outcome (σ : Type) where
  trace : List Event
  exit : Exit
  engine : σ

namespace Server

/-- Go `main` of `server/cmd/server/server.go`. -/
def main (w : World) : Outcome Unit :=
  match bootstrap w with
  | (evs, none) => ⟨evs, Exit.fatal, ()⟩
  | (evs, some _) => ⟨evs, Exit.normal, ()⟩

end Server

namespace Migrate

/-- Go `NewMigrateHandler`: the events, and the error when no handler is
built. -/
def NewMigrateHandler (w : World) (env : Environ) (dbname : String) :
    List Event × Option GoError :=
  match w.withInstanceErr with
  | some err =>
    ([Event.withInstance, logError err "Error creating postgres migrate driver"], some err)
  | none =>
    let call := Event.newWithDatabaseInstance ("file://" ++ getenv env "MIGRATION_DIR") dbname
    match w.newInstanceErr with
    | some err =>
      ([Event.withInstance, call,
        logError err "Error creating postgres migrate instance"], some err)
    | none => ([Event.withInstance, call], none)

/-- Go `strconv.ParseBool`, with which a boolean flag reads a value given as
`-name=value`. -/
def parseBool (v : String) : Option Bool :=
  if v ∈ ["1", "t", "T", "TRUE", "true", "True"] then some true
  else if v ∈ ["0", "f", "F", "FALSE", "false", "False"] then some false
  else none

/-- What the `flag` package makes of one argument: not a flag (fewer than
two characters, or no leading `-`), the terminator `--`, bad flag syntax, or
a flag with its name and, after a `=`, its value. -/
inductive Arg where
  | nonFlag : Arg
  | terminator : Arg
  | bad : Arg
  | flag (name : String) (value : Option String) : Arg
  deriving DecidableEq

/-- A flag name with the value that follows its first `=`, the first
character of the name apart. -/
def splitValue (first : Char) (more : List Char) : Arg :=
  match more.dropWhile (fun c => c ≠ '=') with
  | [] => Arg.flag (String.mk (first :: more)) none
  | _ :: v =>
    Arg.flag (String.mk (first :: more.takeWhile (fun c => c ≠ '='))) (some (String.mk v))

/-- The name part of an argument, after its one or two `-`: bad syntax when
it is empty or starts with `-` or `=`. -/
def readName (name : List Char) : Arg :=
  match name with
  | [] => Arg.bad
  | first :: more => if first = '-' ∨ first = '=' then Arg.bad else splitValue first more

/-- The reading of one argument in `parseOne` of the `flag` package. -/
def readArg (a : String) : Arg :=
  match a.data with
  | '-' :: '-' :: [] => Arg.terminator
  | '-' :: '-' :: name => readName name
  | '-' :: c :: name => readName (c :: name)
  | _ => Arg.nonFlag

/-- What `flag.Parse()` leaves: the value of the flag, or the end of the
process. -/
inductive Parsed where
  | value (b : Bool) : Parsed
  | exit : Parsed
  deriving DecidableEq

/-- Go `flag.Bool(name, dflt, ...)` read after `flag.Parse()`, with `name` the
only flag defined and the command line `args`: arguments are read in order
up to the first that is not a flag; the flag takes the value true, or the
value given after `=`; a flag that is not defined (`-h` and `-help`
included), bad syntax or a value that is no boolean end the process, the
flag set being `ExitOnError`. -/
def flagBool (name : String) (dflt : Bool) : List String → Parsed
  | [] => Parsed.value dflt
  | a :: rest =>
    match readArg a with
    | Arg.nonFlag => Parsed.value dflt
    | Arg.terminator => Parsed.value dflt
    | Arg.bad => Parsed.exit
    | Arg.flag n v =>
      if n = name then
        match v with
        | none => flagBool name true rest
        | some text =>
          match parseBool text with
          | some b => flagBool name b rest
          | none => Parsed.exit
      else Parsed.exit

/-- Whether an argument reads as the flag `name`, with or without a value. -/
def namesFlag (name : String) (a : String) : Bool :=
  match readArg a with
  | Arg.flag n _ => n = name
  | _ => false

/-- Go `main` of `server/tool/migrate/migrate.go`, on the engine `E` in state
`s`. -/
def main {σ : Type} (w : World) (E : Engine σ) (s : σ) : Outcome σ :=
  match bootstrap w with
  | (evs, none) => ⟨evs, Exit.fatal, s⟩
  | (evs, some (env, app)) =>
    match NewMigrateHandler w env app.MeetNRunDatabaseDatabase with
    | (evs2, some _) => ⟨evs ++ evs2, Exit.normal, s⟩
    | (evs2, none) =>
      match flagBool "d" false w.args with
      | Parsed.exit => ⟨evs ++ evs2 ++ [Event.flagParse], Exit.flagExit, s⟩
      | Parsed.value true =>
        let r := MigrateHandler.Down E s
        ⟨evs ++ evs2 ++ [Event.flagParse, Event.run Direction.down] ++ r.trace,
          Exit.normal, r.engine⟩
      | Parsed.value false =>
        let r := MigrateHandler.Up E s
        ⟨evs ++ evs2 ++ [Event.flagParse, Event.run Direction.up] ++ r.trace,
          Exit.normal, r.engine⟩

end Migrate

/-! ## A reference model of the migration engine

The engine (`github.com/golang-migrate/migrate`) is an external library. The
model below follows its documented behaviour: `Version` answers
`ErrNilVersion` as long as no migration has been applied; `Up` applies all
pending up migrations and `Down` applies all down migrations, each answering
`ErrNoChange` when there is none to apply; `Steps(n)` applies `n` migrations
up, or `-n` down for a negative `n`; a migration that fails leaves the
database dirty at its target version, and a dirty database refuses `Up`,
`Down` and `Steps`. The version a database records is always that of a
migration of the source. -/

namespace Reference

/-- One migration of the source directory: its version, and whether its up
and its down script run without error on the database at hand. -/
structure Migration where
  version : Nat
  upOk : Bool
  downOk : Bool
  deriving DecidableEq

/-- The engine state: the migrations of the source in ascending order, how
many of them are applied (`0`: no version recorded), and the dirty flag. -/
structure Database where
  source : List Migration
  applied : Nat
  dirty : Bool
  deriving DecidableEq

/-- The version the database records: that of the last applied migration. -/
def recorded (db : Database) : Option Nat :=
  match db.applied with
  | 0 => none
  | k + 1 => (db.source.get? k).map Migration.version

/-- The error of a dirty database. -/
def ErrDirty : GoError := GoError.other "Dirty database version"

/-- The error of a migration script that fails. -/
def ErrScript : GoError := GoError.other "migration failed"

/-- The error of `Steps` when there is no migration at all in its direction. -/
def ErrNotExist : GoError := GoError.other "file does not exist"

/-- The error of `Steps` when fewer migrations exist than it was asked for. -/
def ErrShortLimit : GoError := GoError.other "limit short"

/-- Run the up scripts of `ms` in order, stopping at the first that fails. -/
def runUp : List Migration → Database → Option GoError × Database
  | [], db => (none, db)
  | m :: ms, db =>
    if m.upOk then runUp ms ⟨db.source, db.applied + 1, false⟩
    else (some ErrScript, ⟨db.source, db.applied + 1, true⟩)

/-- Run the down scripts of `ms` in order, stopping at the first that fails.
A failing down script leaves the database dirty at the version below; below
the first migration there is none, and the database is left with no version
and not dirty. -/
def runDown : List Migration → Database → Option GoError × Database
  | [], db => (none, db)
  | m :: ms, db =>
    if m.downOk then runDown ms ⟨db.source, db.applied - 1, false⟩
    else (some ErrScript, ⟨db.source, db.applied - 1, decide (db.applied - 1 ≠ 0)⟩)

/-- The migrations not applied yet, next one first. -/
def pending (db : Database) : List Migration :=
  db.source.drop db.applied

/-- The applied migrations, last one first. -/
def done (db : Database) : List Migration :=
  (db.source.take db.applied).reverse

/-- The engine's `Version`. -/
def Version (db : Database) : VersionResult × Database :=
  match recorded db with
  | none => (⟨0, false, some GoError.ErrNilVersion⟩, db)
  | some v => (⟨v, db.dirty, none⟩, db)

/-- The engine's `Up`: all pending migrations. With none pending it answers
`ErrNoChange`, and the error of the missing first migration when the
database has no version and the source is empty. -/
def Up (db : Database) : Option GoError × Database :=
  if db.dirty then (some ErrDirty, db)
  else
    match pending db with
    | [] => if db.applied = 0 then (some ErrNotExist, db) else (some GoError.ErrNoChange, db)
    | m :: ms => runUp (m :: ms) db

/-- The engine's `Down`: all applied migrations, back to no version. -/
def Down (db : Database) : Option GoError × Database :=
  if db.dirty then (some ErrDirty, db)
  else
    match done db with
    | [] => (some GoError.ErrNoChange, db)
    | m :: ms => runDown (m :: ms) db

/-- Run at most `k` of the migrations `ms` with `run`; an error when `ms`
is empty or shorter than `k`. -/
def limited (run : List Migration → Database → Option GoError × Database)
    (ms : List Migration) (k : Nat) (db : Database) : Option GoError × Database :=
  match ms with
  | [] => (some ErrNotExist, db)
  | m :: rest =>
    match run ((m :: rest).take k) db with
    | (some err, db1) => (some err, db1)
    | (none, db1) =>
      if (m :: rest).length < k then (some ErrShortLimit, db1) else (none, db1)

/-- The engine's `Steps(n)`. -/
def Steps (n : Int) (db : Database) : Option GoError × Database :=
  if n = 0 then (some GoError.ErrNoChange, db)
  else if db.dirty then (some ErrDirty, db)
  else if 0 < n then limited runUp (pending db) n.toNat db
  else limited runDown (done db) (-n).toNat db

/-- The reference engine. -/
def engine : Engine Database :=
  ⟨Version, Steps, Up, Down⟩

end Reference

/-! ## An engine with answers fixed in advance

The handler takes the engine's answers as they come: the database belongs
to the engine and can change between two calls (another runner working on
the same database). `Scripted.engine` answers each call with the next
prepared answer. -/

namespace Scripted

/-- The answers still to give, per operation. -/
structure Script where
  versions : List VersionResult
  steps : List (Option GoError)
  ups : List (Option GoError)
  downs : List (Option GoError)
  deriving DecidableEq

/-- The next `Version` answer; `ErrNilVersion` when none is left. -/
def Version (s : Script) : VersionResult × Script :=
  match s.versions with
  | [] => (⟨0, false, some GoError.ErrNilVersion⟩, s)
  | r :: rs => (r, ⟨rs, s.steps, s.ups, s.downs⟩)

/-- The next `Steps` answer; success when none is left. -/
def Steps (_n : Int) (s : Script) : Option GoError × Script :=
  match s.steps with
  | [] => (none, s)
  | r :: rs => (r, ⟨s.versions, rs, s.ups, s.downs⟩)

/-- The next `Up` answer; `ErrNoChange` when none is left. -/
def Up (s : Script) : Option GoError × Script :=
  match s.ups with
  | [] => (some GoError.ErrNoChange, s)
  | r :: rs => (r, ⟨s.versions, s.steps, rs, s.downs⟩)

/-- The next `Down` answer; `ErrNoChange` when none is left. -/
def Down (s : Script) : Option GoError × Script :=
  match s.downs with
  | [] => (some GoError.ErrNoChange, s)
  | r :: rs => (r, ⟨s.versions, s.steps, s.ups, rs⟩)

/-- The scripted engine. -/
def engine : Engine Script :=
  ⟨Version, Steps, Up, Down⟩

end Scripted

/-! ## Reading a trace -/

/-- The log entries of a trace, in order. -/
def entries (t : List Event) : List LogEntry :=
  t.filterMap fun e => match e with
    | Event.log entry => some entry
    | _ => none

/-- The messages logged, in order. -/
def messages (t : List Event) : List String :=
  (entries t).map LogEntry.msg

/-- The entries logged at error level. -/
def errorEntries (t : List Event) : List LogEntry :=
  (entries t).filter fun entry => entry.level = Level.error

/-- The entries logged at fatal level. -/
def fatalEntries (t : List Event) : List LogEntry :=
  (entries t).filter fun entry => entry.level = Level.fatal

/-- The engine operations. -/
inductive Call where
  | version : Call
  | steps (n : Int) : Call
  | up : Call
  | down : Call
  deriving DecidableEq

/-- The engine operation an event is a call to, if it is one. -/
def Event.call? : Event → Option Call
  | Event.version _ => some Call.version
  | Event.steps n _ => some (Call.steps n)
  | Event.up _ => some Call.up
  | Event.down _ => some Call.down
  | _ => none

/-- The handler operations `main` called in a trace, in order. -/
def runs (t : List Event) : List Direction :=
  t.filterMap fun e => match e with
    | Event.run dir => some dir
    | _ => none

/-- The calls to the engine made in a trace, in order. -/
def calls (t : List Event) : List Call :=
  t.filterMap Event.call?

/-- A run that stopped on an error: its last event is the error entry
`entry`, the event before it is the engine call `call` (so no call to the
engine follows the failing one), `entry` is the only entry at error level,
nothing is logged at fatal level, and neither final report is logged. -/
def AbortedAfter (t : List Event) (call : Event) (entry : LogEntry) : Prop :=
  t.getLast? = some (Event.log entry) ∧ t.dropLast.getLast? = some call ∧
  call.call?.isSome = true ∧ entry.level = Level.error ∧
  errorEntries t = [entry] ∧ fatalEntries t = [] ∧
  "Successfully migrated" ∉ messages t ∧ "Nothing to migrate" ∉ messages t

/-! ## The answers a handler run gets

Names for the engine's answers along a run of `MigrateHandler.Up` or
`MigrateHandler.Down` from the engine state `s`, in the order of the calls:
the first version query, `Steps(1)`, the engine's `Up` or `Down`, the second
version query. -/

namespace MigrateHandler

variable {σ : Type}

/-- The answer to the first version query, as `getVersion` returns it. -/
def firstQuery (E : Engine σ) (s : σ) : VersionResult :=
  (getVersion E s).1

/-- Whether the first version query answered `ErrNilVersion`. -/
def nilVersion (q : VersionResult) : Bool :=
  match q.err with
  | some err => errorsIs err GoError.ErrNilVersion
  | none => false

/-- The answer of `Steps(1)` called right after the first version query. -/
def initStep (E : Engine σ) (s : σ) : Option GoError :=
  (E.Steps 1 (getVersion E s).2).1

/-- The engine state in which the engine's `Up` or `Down` is called: after
the first version query, and after `Steps(1)` when that query answered
`ErrNilVersion`. -/
def atRun (E : Engine σ) (s : σ) : σ :=
  if nilVersion (firstQuery E s) then (E.Steps 1 (getVersion E s).2).2
  else (getVersion E s).2

/-- Whether the run gets as far as the engine's `Up` or `Down`: the first
query succeeded, or it answered `ErrNilVersion` and `Steps(1)` succeeded. -/
def reachesRun (E : Engine σ) (s : σ) : Bool :=
  match (firstQuery E s).err with
  | none => true
  | some err => errorsIs err GoError.ErrNilVersion && (initStep E s).isNone

/-- The answer of the engine's `Up`. -/
def upAnswer (E : Engine σ) (s : σ) : Option GoError :=
  (E.Up (atRun E s)).1

/-- The answer of the engine's `Down`. -/
def downAnswer (E : Engine σ) (s : σ) : Option GoError :=
  (E.Down (atRun E s)).1

/-- Whether an answer of the engine's `Up` or `Down` lets the run go on:
no error, or `ErrNoChange`. -/
def goesOn (answer : Option GoError) : Bool :=
  match answer with
  | none => true
  | some err => errorsIs err GoError.ErrNoChange

/-- The answer to the version query made after the engine's `Up`. -/
def lastQueryUp (E : Engine σ) (s : σ) : VersionResult :=
  (getVersion E (E.Up (atRun E s)).2).1

/-- The answer to the version query made after the engine's `Down`. -/
def lastQueryDown (E : Engine σ) (s : σ) : VersionResult :=
  (getVersion E (E.Down (atRun E s)).2).1

/-- The trace of `Up` written as a function of the four answers (used to
reason by cases on the answers). -/
def upTrace (q0 : VersionResult) (st u : Option GoError) (q1 : VersionResult) :
    List Event :=
  let run : List Event :=
    [logState q0.version q0.dirty "Got current migration state", Event.up u] ++
    (if goesOn u then
      Event.version q1 ::
        (match q1.err with
         | some err => [logError err "Error getting new migration version"]
         | none =>
           if q1.version > q0.version then
             [logState q1.version q1.dirty "Successfully migrated"]
           else [logInfo "Nothing to migrate"])
     else [logError (u.getD GoError.ErrNoChange) "Error migrating up"])
  Event.version q0 ::
    (match q0.err with
     | none => run
     | some err =>
       if errorsIs err GoError.ErrNilVersion then
         match st with
         | some stepErr =>
           [Event.steps 1 (some stepErr),
            logError stepErr "Error initializing first migration"]
         | none => Event.steps 1 none :: run
       else [logError err "Error getting migration version"])

/-- The trace of `Down` written as a function of the four answers. -/
def downTrace (q0 : VersionResult) (st u : Option GoError) (q1 : VersionResult) :
    List Event :=
  let report : List Event :=
    if q1.version < q0.version then
      [logState q1.version q1.dirty "Successfully migrated"]
    else [logInfo "Nothing to migrate"]
  let run : List Event :=
    [logState q0.version q0.dirty "Got current migration state", Event.down u] ++
    (if goesOn u then
      Event.version q1 ::
        (match q1.err with
         | some err =>
           if errorsIs err GoError.ErrNilVersion then report
           else [logError err "Error getting new migration version"]
         | none => report)
     else [logError (u.getD GoError.ErrNoChange) "Error migrating down"])
  Event.version q0 ::
    (match q0.err with
     | none => run
     | some err =>
       if errorsIs err GoError.ErrNilVersion then
         match st with
         | some stepErr =>
           [Event.steps 1 (some stepErr),
            logError stepErr "Error initializing first migration"]
         | none => Event.steps 1 none :: run
       else [logError err "Error getting migration version"])

end MigrateHandler

end MeetNRun

/-! ## Concrete inputs -/

namespace MeetNRun

namespace Sample

/-- Two migrations, versions 1 and 2, whose scripts all run cleanly. -/
def twoMigrations : List Reference.Migration :=
  [⟨1, true, true⟩, ⟨2, true, true⟩]

/-- A fresh database: two migrations in the source, none applied. -/
def fresh : Reference.Database :=
  ⟨twoMigrations, 0, false⟩

/-- A database at version 2, the second of two migrations. -/
def atTwo : Reference.Database :=
  ⟨twoMigrations, 2, false⟩

/-- A database at version 1 whose source holds that single migration. -/
def atOne : Reference.Database :=
  ⟨[⟨1, true, true⟩], 1, false⟩

/-- A fresh database whose first migration has an up script that fails. -/
def failingFirst : Reference.Database :=
  ⟨[⟨1, false, true⟩], 0, false⟩

/-- A fresh database with an empty source directory. -/
def emptySource : Reference.Database :=
  ⟨[], 0, false⟩

/-- A database left dirty at version 1. -/
def dirtyOne : Reference.Database :=
  ⟨twoMigrations, 1, true⟩

/-- An engine whose first version query fails: the database is unreachable. -/
def unreachable : Scripted.Script :=
  ⟨[⟨0, false, some (GoError.other "connection refused")⟩], [], [], []⟩

/-- An engine at version 1 whose `Up` and `Down` succeed and whose second
version query fails. -/
def lostConnection : Scripted.Script :=
  ⟨[⟨1, false, none⟩, ⟨0, false, some (GoError.other "connection lost")⟩], [], [none],
    [none]⟩

/-- An engine at version 1 with nothing to do in either direction. -/
def idle : Scripted.Script :=
  ⟨[⟨1, false, none⟩, ⟨1, false, none⟩], [], [some GoError.ErrNoChange],
    [some GoError.ErrNoChange]⟩

/-- A database at version 2 with nothing pending that another runner rolls
back to version 1 after the engine's `Up` and before the second query. -/
def rolledBack : Scripted.Script :=
  ⟨[⟨2, false, none⟩, ⟨1, false, none⟩], [], [some GoError.ErrNoChange], []⟩

/-- An environment with four of the five variables: the port is not set. -/
def noPort : Environ :=
  [("MEETNRUN_DATABASE_USER", "run"), ("MEETNRUN_DATABASE_PASSWORD", "secret"),
   ("MEETNRUN_DATABASE_DATABASE", "meetnrun"), ("MEETNRUN_DATABASE_HOST", "localhost")]

/-- An environment with the five variables and the migration directory. -/
def fullEnv : Environ :=
  [("MEETNRUN_DATABASE_USER", "run"), ("MEETNRUN_DATABASE_PASSWORD", "secret"),
   ("MEETNRUN_DATABASE_DATABASE", "meetnrun"), ("MEETNRUN_DATABASE_HOST", "localhost"),
   ("MEETNRUN_DATABASE_PORT", "5432"), ("MIGRATION_DIR", "migrations")]

/-- The configuration `fullEnv` gives. -/
def fullApp : App :=
  ⟨"run", "secret", "meetnrun", "localhost", "5432"⟩

/-- A world without the port: the connection opens lazily, and the ping
fails on the DSN with the empty port. -/
def portless : World :=
  ⟨noPort, none, fun _ => none, some (GoError.other "could not connect"), none, none, []⟩

/-- A world with the full environment in which everything outside the
program works, with the command line `args`. -/
def world (args : List String) : World :=
  ⟨fullEnv, none, fun _ => none, none, none, none, args⟩

/-- A world with the full environment and a reachable database in which the
migration driver cannot be created. -/
def noDriver : World :=
  ⟨fullEnv, none, fun _ => none, none, some (GoError.other "driver"), none, []⟩

/-- A world with the full environment and no database behind it. -/
def noDatabase : World :=
  ⟨fullEnv, none, fun _ => none, some (GoError.other "connection refused"), none, none, []⟩

end Sample

end MeetNRun

/-! ## The handler's trace and final state, by cases on the engine's answers -/

namespace MeetNRun

open MigrateHandler

variable {σ : Type}

/-- The trace of the second query and final report of `Up`. -/
theorem upReport_trace (E : Engine σ) (version : Nat) (s1 : σ) :
    (upReport E version s1).trace =
      Event.version (getVersion E s1).1 ::
        (match (getVersion E s1).1.err with
         | some err => [logError err "Error getting new migration version"]
         | none =>
           if (getVersion E s1).1.version > version then
             [logState (getVersion E s1).1.version (getVersion E s1).1.dirty
               "Successfully migrated"]
           else [logInfo "Nothing to migrate"]) := by
  unfold upReport
  generalize getVersion E s1 = r
  rcases r with ⟨⟨v, d, err⟩, s2⟩
  cases err with
  | some e => simp [Run.after]
  | none => by_cases h : v > version <;> simp [Run.after, h]

/-- The trace of `Up` from the log of the current state on. -/
theorem upFrom_trace (E : Engine σ) (version : Nat) (dirty : Bool) (s : σ) :
    (upFrom E version dirty s).trace =
      [logState version dirty "Got current migration state", Event.up (E.Up s).1] ++
      (if goesOn (E.Up s).1 then (upReport E version (E.Up s).2).trace
       else [logError ((E.Up s).1.getD GoError.ErrNoChange) "Error migrating up"]) := by
  unfold upFrom
  generalize E.Up s = r
  rcases r with ⟨u, s1⟩
  cases u with
  | none => simp [Run.after, goesOn]
  | some e =>
    by_cases h : errorsIs e GoError.ErrNoChange = true <;> simp [Run.after, goesOn, h]

/-- The trace of `Up` is `upTrace` of the four answers of the engine. -/
theorem Up_trace_eq (E : Engine σ) (s : σ) :
    (Up E s).trace =
      upTrace (firstQuery E s) (initStep E s) (upAnswer E s) (lastQueryUp E s) := by
  unfold Up upTrace upAnswer lastQueryUp atRun initStep firstQuery nilVersion
  generalize getVersion E s = r
  rcases r with ⟨⟨v, d, err⟩, s1⟩
  cases err with
  | none => simp [Run.after, upFrom_trace, upReport_trace]
  | some e =>
    by_cases h : errorsIs e GoError.ErrNilVersion = true
    · simp only [h, if_true]
      generalize E.Steps 1 s1 = r
      rcases r with ⟨st, s2⟩
      cases st with
      | some e2 => simp [Run.after]
      | none => simp [Run.after, upFrom_trace, upReport_trace]
    · simp [Run.after, h]

/-- The trace of the second query and final report of `Down`. -/
theorem downReport_trace (E : Engine σ) (version : Nat) (s1 : σ) :
    (downReport E version s1).trace =
      Event.version (getVersion E s1).1 ::
        (match (getVersion E s1).1.err with
         | some err =>
           if errorsIs err GoError.ErrNilVersion then
             (if (getVersion E s1).1.version < version then
               [logState (getVersion E s1).1.version (getVersion E s1).1.dirty
                 "Successfully migrated"]
              else [logInfo "Nothing to migrate"])
           else [logError err "Error getting new migration version"]
         | none =>
           if (getVersion E s1).1.version < version then
             [logState (getVersion E s1).1.version (getVersion E s1).1.dirty
               "Successfully migrated"]
           else [logInfo "Nothing to migrate"]) := by
  unfold downReport downFinal
  generalize getVersion E s1 = r
  rcases r with ⟨⟨v, d, err⟩, s2⟩
  cases err with
  | some e =>
    by_cases h : errorsIs e GoError.ErrNilVersion = true <;>
      by_cases h2 : v < version <;> simp [Run.after, h, h2]
  | none => by_cases h : v < version <;> simp [Run.after, h]

/-- The trace of `Down` from the log of the current state on. -/
theorem downFrom_trace (E : Engine σ) (version : Nat) (dirty : Bool) (s : σ) :
    (downFrom E version dirty s).trace =
      [logState version dirty "Got current migration state", Event.down (E.Down s).1] ++
      (if goesOn (E.Down s).1 then (downReport E version (E.Down s).2).trace
       else [logError ((E.Down s).1.getD GoError.ErrNoChange) "Error migrating down"]) := by
  unfold downFrom
  generalize E.Down s = r
  rcases r with ⟨u, s1⟩
  cases u with
  | none => simp [Run.after, goesOn]
  | some e =>
    by_cases h : errorsIs e GoError.ErrNoChange = true <;> simp [Run.after, goesOn, h]

/-- The trace of `Down` is `downTrace` of the four answers of the engine. -/
theorem Down_trace_eq (E : Engine σ) (s : σ) :
    (Down E s).trace =
      downTrace (firstQuery E s) (initStep E s) (downAnswer E s) (lastQueryDown E s) := by
  unfold Down downTrace downAnswer lastQueryDown atRun initStep firstQuery nilVersion
  generalize getVersion E s = r
  rcases r with ⟨⟨v, d, err⟩, s1⟩
  cases err with
  | none => simp [Run.after, downFrom_trace, downReport_trace]
  | some e =>
    by_cases h : errorsIs e GoError.ErrNilVersion = true
    · simp only [h, if_true]
      generalize E.Steps 1 s1 = r
      rcases r with ⟨st, s2⟩
      cases st with
      | some e2 => simp [Run.after]
      | none => simp [Run.after, downFrom_trace, downReport_trace]
    · simp [Run.after, h]

/-- An answer of `getVersion` that carries an error carries version 0 and
a clean flag. -/
theorem getVersion_of_err (E : Engine σ) (s : σ) (e : GoError)
    (h : (getVersion E s).1.err = some e) : (getVersion E s).1 = ⟨0, false, some e⟩ := by
  unfold getVersion at *
  generalize E.Version s = r at *
  rcases r with ⟨⟨v, d, err⟩, s1⟩
  cases err with
  | none => simp at h
  | some e2 => simp at h; simp [h]

/-- The first query, when it carries an error. -/
theorem firstQuery_of_err (E : Engine σ) (s : σ) (e : GoError)
    (h : (firstQuery E s).err = some e) : firstQuery E s = ⟨0, false, some e⟩ :=
  getVersion_of_err E s e h

/-- The second query of `Up`, when it carries an error. -/
theorem lastQueryUp_of_err (E : Engine σ) (s : σ) (e : GoError)
    (h : (lastQueryUp E s).err = some e) : lastQueryUp E s = ⟨0, false, some e⟩ :=
  getVersion_of_err E _ e h

/-- The second query of `Down`, when it carries an error. -/
theorem lastQueryDown_of_err (E : Engine σ) (s : σ) (e : GoError)
    (h : (lastQueryDown E s).err = some e) : lastQueryDown E s = ⟨0, false, some e⟩ :=
  getVersion_of_err E _ e h

/-- The engine state after the final report of `Up`. -/
theorem upReport_engine (E : Engine σ) (version : Nat) (s1 : σ) :
    (upReport E version s1).engine = (getVersion E s1).2 := by
  unfold upReport
  generalize getVersion E s1 = r
  rcases r with ⟨⟨v, d, err⟩, s2⟩
  cases err with
  | some e => simp [Run.after]
  | none => by_cases h : v > version <;> simp [Run.after, h]

/-- The engine state `Up` leaves when the engine's `Up` lets it go on. -/
theorem upFrom_engine (E : Engine σ) (version : Nat) (dirty : Bool) (s : σ)
    (h : goesOn (E.Up s).1 = true) :
    (upFrom E version dirty s).engine = (getVersion E (E.Up s).2).2 := by
  unfold upFrom
  revert h
  generalize E.Up s = r
  rcases r with ⟨u, s1⟩
  cases u with
  | none => simp [Run.after, upReport_engine]
  | some e => intro h; simp only [goesOn] at h; simp [Run.after, h, upReport_engine]

/-- The engine state a run of `Up` leaves when it gets to the second query. -/
theorem Up_engine_eq (E : Engine σ) (s : σ) (h1 : reachesRun E s = true)
    (h2 : goesOn (upAnswer E s) = true) :
    (Up E s).engine = (getVersion E (E.Up (atRun E s)).2).2 := by
  revert h1 h2
  unfold Up upAnswer atRun reachesRun initStep firstQuery nilVersion
  generalize getVersion E s = r
  rcases r with ⟨⟨v, d, err⟩, s1⟩
  cases err with
  | none => intro _ h2; simp at h2; simp [Run.after, upFrom_engine, h2]
  | some e =>
    by_cases h : errorsIs e GoError.ErrNilVersion = true
    · simp only [h, if_true]
      generalize E.Steps 1 s1 = r
      rcases r with ⟨st, s2⟩
      cases st with
      | some e2 => simp
      | none => intro _ h2; simp at h2; simp [Run.after, upFrom_engine, h2]
    · simp [h]

/-- The engine state after the final report of `Down`. -/
theorem downReport_engine (E : Engine σ) (version : Nat) (s1 : σ) :
    (downReport E version s1).engine = (getVersion E s1).2 := by
  unfold downReport downFinal
  generalize getVersion E s1 = r
  rcases r with ⟨⟨v, d, err⟩, s2⟩
  cases err with
  | some e =>
    by_cases h : errorsIs e GoError.ErrNilVersion = true <;>
      by_cases h2 : v < version <;> simp [Run.after, h, h2]
  | none => by_cases h : v < version <;> simp [Run.after, h]

/-- The engine state `Down` leaves when the engine's `Down` lets it go on. -/
theorem downFrom_engine (E : Engine σ) (version : Nat) (dirty : Bool) (s : σ)
    (h : goesOn (E.Down s).1 = true) :
    (downFrom E version dirty s).engine = (getVersion E (E.Down s).2).2 := by
  unfold downFrom
  revert h
  generalize E.Down s = r
  rcases r with ⟨u, s1⟩
  cases u with
  | none => simp [Run.after, downReport_engine]
  | some e => intro h; simp only [goesOn] at h; simp [Run.after, h, downReport_engine]

/-- The engine state a run of `Down` leaves when it gets to the second query. -/
theorem Down_engine_eq (E : Engine σ) (s : σ) (h1 : reachesRun E s = true)
    (h2 : goesOn (downAnswer E s) = true) :
    (Down E s).engine = (getVersion E (E.Down (atRun E s)).2).2 := by
  revert h1 h2
  unfold Down downAnswer atRun reachesRun initStep firstQuery nilVersion
  generalize getVersion E s = r
  rcases r with ⟨⟨v, d, err⟩, s1⟩
  cases err with
  | none => intro _ h2; simp at h2; simp [Run.after, downFrom_engine, h2]
  | some e =>
    by_cases h : errorsIs e GoError.ErrNilVersion = true
    · simp only [h, if_true]
      generalize E.Steps 1 s1 = r
      rcases r with ⟨st, s2⟩
      cases st with
      | some e2 => simp
      | none => intro _ h2; simp at h2; simp [Run.after, downFrom_engine, h2]
    · simp [h]

/-- A run of `Up` that logs no error got through the engine's `Up` and
through the second version query. -/
theorem Up_no_error (E : Engine σ) (s : σ) (h : errorEntries (Up E s).trace = []) :
    reachesRun E s = true ∧ goesOn (upAnswer E s) = true ∧ (lastQueryUp E s).err = none := by
  revert h
  rw [Up_trace_eq]
  unfold reachesRun errorEntries
  generalize firstQuery E s = q0
  generalize initStep E s = st
  generalize upAnswer E s = u
  generalize lastQueryUp E s = q1
  rcases q0 with ⟨v, d, err⟩
  rcases q1 with ⟨v1, d1, err1⟩
  rcases err with _ | e <;> rcases err1 with _ | e1 <;> rcases st with _ | e2 <;>
    simp only [upTrace] <;> split_ifs <;>
    simp [entries, logError, logState, logInfo, *]

/-- A run of `Down` that logs no error got through the engine's `Down`. -/
theorem Down_no_error (E : Engine σ) (s : σ) (h : errorEntries (Down E s).trace = []) :
    reachesRun E s = true ∧ goesOn (downAnswer E s) = true := by
  revert h
  rw [Down_trace_eq]
  unfold reachesRun errorEntries
  generalize firstQuery E s = q0
  generalize initStep E s = st
  generalize downAnswer E s = u
  generalize lastQueryDown E s = q1
  rcases q0 with ⟨v, d, err⟩
  rcases q1 with ⟨v1, d1, err1⟩
  rcases err with _ | e <;> rcases err1 with _ | e1 <;> rcases st with _ | e2 <;>
    simp only [downTrace] <;> split_ifs <;>
    simp [entries, logError, logState, logInfo, *]

/-- What `reachesRun` says about the first two answers. -/
theorem reaches_cases (q0 : VersionResult) (st : Option GoError)
    (h : (match q0.err with
      | none => true
      | some err => errorsIs err GoError.ErrNilVersion && st.isNone) = true) :
    q0.err = none ∨ ∃ e, q0.err = some e ∧ errorsIs e GoError.ErrNilVersion = true ∧ st = none := by
  rcases q0 with ⟨v, d, _ | e0⟩
  · simp
  · rcases st with _ | e2
    · simp at h; simp [h]
    · simp at h

/-- Handler `Up` stops on a failing first query. -/
theorem upTrace_abort_first (q0 q1 : VersionResult) (st u : Option GoError) (e : GoError)
    (h : q0.err = some e) (hn : errorsIs e GoError.ErrNilVersion = false) :
    AbortedAfter (upTrace q0 st u q1) (Event.version q0)
      ⟨Level.error, "Error getting migration version", some e, none⟩ := by
  rcases q0 with ⟨v, d, err⟩
  simp only at h
  subst h
  simp [AbortedAfter, upTrace, hn, errorEntries, fatalEntries, messages, entries, logError,
    Event.call?]

/-- Handler `Down` stops on a failing first query. -/
theorem downTrace_abort_first (q0 q1 : VersionResult) (st u : Option GoError) (e : GoError)
    (h : q0.err = some e) (hn : errorsIs e GoError.ErrNilVersion = false) :
    AbortedAfter (downTrace q0 st u q1) (Event.version q0)
      ⟨Level.error, "Error getting migration version", some e, none⟩ := by
  rcases q0 with ⟨v, d, err⟩
  simp only at h
  subst h
  simp [AbortedAfter, downTrace, hn, errorEntries, fatalEntries, messages, entries, logError,
    Event.call?]

/-- Handler `Up` stops on a failing `Steps(1)`. -/
theorem upTrace_abort_init (q0 q1 : VersionResult) (u : Option GoError) (e : GoError)
    (h : nilVersion q0 = true) :
    AbortedAfter (upTrace q0 (some e) u q1) (Event.steps 1 (some e))
      ⟨Level.error, "Error initializing first migration", some e, none⟩ := by
  rcases q0 with ⟨v, d, _ | e0⟩
  · simp [nilVersion] at h
  · simp only [nilVersion] at h
    simp [AbortedAfter, upTrace, h, errorEntries, fatalEntries, messages, entries, logError,
      Event.call?]

/-- Handler `Down` stops on a failing `Steps(1)`. -/
theorem downTrace_abort_init (q0 q1 : VersionResult) (u : Option GoError) (e : GoError)
    (h : nilVersion q0 = true) :
    AbortedAfter (downTrace q0 (some e) u q1) (Event.steps 1 (some e))
      ⟨Level.error, "Error initializing first migration", some e, none⟩ := by
  rcases q0 with ⟨v, d, _ | e0⟩
  · simp [nilVersion] at h
  · simp only [nilVersion] at h
    simp [AbortedAfter, downTrace, h, errorEntries, fatalEntries, messages, entries, logError,
      Event.call?]

/-- Handler `Up` stops when the engine's `Up` fails. -/
theorem upTrace_abort_run (q0 q1 : VersionResult) (st : Option GoError) (e : GoError)
    (h : q0.err = none ∨
      ∃ e0, q0.err = some e0 ∧ errorsIs e0 GoError.ErrNilVersion = true ∧ st = none)
    (hn : errorsIs e GoError.ErrNoChange = false) :
    AbortedAfter (upTrace q0 st (some e) q1) (Event.up (some e))
      ⟨Level.error, "Error migrating up", some e, none⟩ := by
  rcases q0 with ⟨v, d, err⟩
  rcases h with h | ⟨e0, h, h0, hst⟩ <;> simp only at h <;> subst h
  · simp [AbortedAfter, upTrace, hn, goesOn, errorEntries, fatalEntries, messages, entries,
      logError, logState, Event.call?]
  · subst hst
    simp [AbortedAfter, upTrace, hn, h0, goesOn, errorEntries, fatalEntries, messages,
      entries, logError, logState, Event.call?]

/-- Handler `Down` stops when the engine's `Down` fails. -/
theorem downTrace_abort_run (q0 q1 : VersionResult) (st : Option GoError) (e : GoError)
    (h : q0.err = none ∨
      ∃ e0, q0.err = some e0 ∧ errorsIs e0 GoError.ErrNilVersion = true ∧ st = none)
    (hn : errorsIs e GoError.ErrNoChange = false) :
    AbortedAfter (downTrace q0 st (some e) q1) (Event.down (some e))
      ⟨Level.error, "Error migrating down", some e, none⟩ := by
  rcases q0 with ⟨v, d, err⟩
  rcases h with h | ⟨e0, h, h0, hst⟩ <;> simp only at h <;> subst h
  · simp [AbortedAfter, downTrace, hn, goesOn, errorEntries, fatalEntries, messages, entries,
      logError, logState, Event.call?]
  · subst hst
    simp [AbortedAfter, downTrace, hn, h0, goesOn, errorEntries, fatalEntries, messages,
      entries, logError, logState, Event.call?]

/-- Handler `Up` stops on a failing second query. -/
theorem upTrace_abort_last (q0 q1 : VersionResult) (st u : Option GoError) (e : GoError)
    (h : q0.err = none ∨
      ∃ e0, q0.err = some e0 ∧ errorsIs e0 GoError.ErrNilVersion = true ∧ st = none)
    (hu : goesOn u = true) (h1 : q1.err = some e) :
    AbortedAfter (upTrace q0 st u q1) (Event.version q1)
      ⟨Level.error, "Error getting new migration version", some e, none⟩ := by
  rcases q0 with ⟨v, d, err⟩
  rcases q1 with ⟨v1, d1, err1⟩
  simp only at h1
  subst h1
  rcases h with h | ⟨e0, h, h0, hst⟩ <;> simp only at h <;> subst h
  · simp [AbortedAfter, upTrace, hu, errorEntries, fatalEntries, messages, entries,
      logError, logState, Event.call?]
  · subst hst
    simp [AbortedAfter, upTrace, hu, h0, errorEntries, fatalEntries, messages,
      entries, logError, logState, Event.call?]

/-- Handler `Down` stops on a failing second query. -/
theorem downTrace_abort_last (q0 q1 : VersionResult) (st u : Option GoError) (e : GoError)
    (h : q0.err = none ∨
      ∃ e0, q0.err = some e0 ∧ errorsIs e0 GoError.ErrNilVersion = true ∧ st = none)
    (hu : goesOn u = true) (h1 : q1.err = some e)
    (hn : errorsIs e GoError.ErrNilVersion = false) :
    AbortedAfter (downTrace q0 st u q1) (Event.version q1)
      ⟨Level.error, "Error getting new migration version", some e, none⟩ := by
  rcases q0 with ⟨v, d, err⟩
  rcases q1 with ⟨v1, d1, err1⟩
  simp only at h1
  subst h1
  rcases h with h | ⟨e0, h, h0, hst⟩ <;> simp only at h <;> subst h
  · simp [AbortedAfter, downTrace, hu, hn, errorEntries, fatalEntries, messages, entries,
      logError, logState, Event.call?]
  · subst hst
    simp [AbortedAfter, downTrace, hu, hn, h0, errorEntries, fatalEntries, messages,
      entries, logError, logState, Event.call?]

/-- Handler `Up` makes its second query when the engine's `Up` lets it go on. -/
theorem upTrace_goes_on (q0 q1 : VersionResult) (st u : Option GoError)
    (h : q0.err = none ∨
      ∃ e0, q0.err = some e0 ∧ errorsIs e0 GoError.ErrNilVersion = true ∧ st = none)
    (hu : goesOn u = true) :
    (calls (upTrace q0 st u q1)).reverse.take 2 = [Call.version, Call.up] ∧
    "Error migrating up" ∉ messages (upTrace q0 st u q1) := by
  rcases q0 with ⟨v, d, err⟩
  rcases q1 with ⟨v1, d1, _ | e1⟩ <;>
  rcases h with h | ⟨e0, h, h0, hst⟩ <;> simp only at h <;> subst h <;>
    (try subst hst) <;> simp only [upTrace] <;> split_ifs <;>
    simp [calls, messages, entries, logError, logState, logInfo, Event.call?, *]

/-- Handler `Down` makes its second query when the engine's `Down` lets it go
on. -/
theorem downTrace_goes_on (q0 q1 : VersionResult) (st u : Option GoError)
    (h : q0.err = none ∨
      ∃ e0, q0.err = some e0 ∧ errorsIs e0 GoError.ErrNilVersion = true ∧ st = none)
    (hu : goesOn u = true) :
    (calls (downTrace q0 st u q1)).reverse.take 2 = [Call.version, Call.down] ∧
    "Error migrating down" ∉ messages (downTrace q0 st u q1) := by
  rcases q0 with ⟨v, d, err⟩
  rcases q1 with ⟨v1, d1, _ | e1⟩ <;>
  rcases h with h | ⟨e0, h, h0, hst⟩ <;> simp only at h <;> subst h <;>
    (try subst hst) <;> simp only [downTrace] <;> split_ifs <;>
    simp [calls, messages, entries, logError, logState, logInfo, Event.call?, *]

/-- A run of `Up` holds no call of a handler operation by `main` and does not
log the message of the environment failure. -/
theorem upTrace_plain (q0 q1 : VersionResult) (st u : Option GoError) :
    runs (upTrace q0 st u q1) = [] ∧
    "could not parse environment variables" ∉ messages (upTrace q0 st u q1) := by
  rcases q0 with ⟨v, d, _ | e⟩ <;> rcases q1 with ⟨v1, d1, _ | e1⟩ <;>
    rcases st with _ | e2 <;> simp only [upTrace] <;> split_ifs <;>
    simp [runs, messages, entries, logError, logState, logInfo]

/-- A run of `Down` holds no call of a handler operation by `main` and does not
log the message of the environment failure. -/
theorem downTrace_plain (q0 q1 : VersionResult) (st u : Option GoError) :
    runs (downTrace q0 st u q1) = [] ∧
    "could not parse environment variables" ∉ messages (downTrace q0 st u q1) := by
  rcases q0 with ⟨v, d, _ | e⟩ <;> rcases q1 with ⟨v1, d1, _ | e1⟩ <;>
    rcases st with _ | e2 <;> simp only [downTrace] <;> split_ifs <;>
    simp [runs, messages, entries, logError, logState, logInfo]

/-- The messages of two traces in a row. -/
theorem messages_append (a b : List Event) : messages (a ++ b) = messages a ++ messages b := by
  simp [messages, entries]

/-- The engine calls of two traces in a row. -/
theorem calls_append (a b : List Event) : calls (a ++ b) = calls a ++ calls b := by
  simp [calls]

/-- The handler calls of two traces in a row. -/
theorem runs_append (a b : List Event) : runs (a ++ b) = runs a ++ runs b := by
  simp [runs]

/-! ## The reference engine -/

namespace Reference

/-- A version query leaves the reference engine as it is. -/
theorem getVersion_state (db : Database) : (getVersion engine db).2 = db := by
  unfold getVersion engine Version
  cases h : recorded db <;> simp [h]

/-- What `getVersion` returns on the reference engine. -/
theorem getVersion_answer (db : Database) :
    (getVersion engine db).1 =
      match recorded db with
      | none => ⟨0, false, some GoError.ErrNilVersion⟩
      | some v => ⟨v, db.dirty, none⟩ := by
  unfold getVersion engine Version
  cases h : recorded db <;> simp [h]

/-- Running up scripts either fails on a script or applies all of them. -/
theorem runUp_spec (ms : List Migration) (db : Database) :
    ((runUp ms db).1 = none ∧
      (runUp ms db).2 = ⟨db.source, db.applied + ms.length,
        if ms = [] then db.dirty else false⟩) ∨
    (runUp ms db).1 = some ErrScript := by
  induction ms generalizing db with
  | nil => left; simp [runUp]
  | cons m ms ih =>
    unfold runUp
    by_cases h : m.upOk = true
    · simp only [h, if_true]
      rcases ih ⟨db.source, db.applied + 1, false⟩ with ⟨h1, h2⟩ | h1
      · left
        refine ⟨h1, ?_⟩
        rw [h2]
        cases ms <;> simp; omega
      · right; exact h1
    · right; simp [h]

/-- Running down scripts either fails on a script or takes all of them back. -/
theorem runDown_spec (ms : List Migration) (db : Database) :
    ((runDown ms db).1 = none ∧
      (runDown ms db).2 = ⟨db.source, db.applied - ms.length,
        if ms = [] then db.dirty else false⟩) ∨
    (runDown ms db).1 = some ErrScript := by
  induction ms generalizing db with
  | nil => left; simp [runDown]
  | cons m ms ih =>
    unfold runDown
    by_cases h : m.downOk = true
    · simp only [h, if_true]
      rcases ih ⟨db.source, db.applied - 1, false⟩ with ⟨h1, h2⟩ | h1
      · left
        refine ⟨h1, ?_⟩
        rw [h2]
        cases ms <;> simp; omega
      · right; exact h1
    · right; simp [h]

/-- A failing script stops the handler. -/
theorem not_goesOn_script : goesOn (some ErrScript) = false := by decide

/-- A dirty database stops the handler. -/
theorem not_goesOn_dirty : goesOn (some ErrDirty) = false := by decide

/-- After an `Up` of the engine that lets the handler go on, the database is
clean, nothing is pending, and a further `Up` answers `ErrNoChange` and
changes nothing. -/
theorem Up_settled (x : Database) (h : goesOn (Up x).1 = true) :
    (Up x).2.dirty = false ∧ Up (Up x).2 = (some GoError.ErrNoChange, (Up x).2) := by
  unfold Up at h ⊢
  by_cases hd : x.dirty = true
  · simp [hd, not_goesOn_dirty] at h
  · simp only [hd, Bool.false_eq_true, if_false] at h ⊢
    cases hp : pending x with
    | nil =>
      simp only [hp] at h ⊢
      by_cases h0 : x.applied = 0
      · simp only [h0, if_true] at h
        exact absurd h (by decide)
      · simp [h0, hp, hd]
    | cons m ms =>
      simp only [hp] at h ⊢
      rcases runUp_spec (m :: ms) x with ⟨h1, h2⟩ | h1
      · have hlen : (m :: ms).length = x.source.length - x.applied := by
          rw [← hp]; simp [pending]
        have hpos : 0 < (m :: ms).length := by simp
        rw [h2]
        simp only [if_false, reduceCtorEq, Bool.false_eq_true]
        have hnone : pending ⟨x.source, x.applied + (ms.length + 1), false⟩ = [] := by
          simp only [pending]
          apply List.drop_eq_nil_of_le
          simp only [List.length_cons] at hlen
          omega
        simp [hnone]
      · rw [h1] at h
        simp [not_goesOn_script] at h

/-- An engine `Down` that lets the handler go on, on a database with at least
one applied migration, leaves none applied. -/
theorem Down_settled (x : Database) (h1 : 1 ≤ x.applied) (h2 : x.applied ≤ x.source.length)
    (h : goesOn (Down x).1 = true) : (Down x).2.applied = 0 := by
  unfold Down at h ⊢
  by_cases hd : x.dirty = true
  · simp [hd, not_goesOn_dirty] at h
  · simp only [hd, Bool.false_eq_true, if_false] at h ⊢
    have hlen : (done x).length = x.applied := by simp [done, h2]
    cases hp : done x with
    | nil => rw [hp] at hlen; simp at hlen; omega
    | cons m ms =>
      simp only [hp] at h ⊢
      rcases runDown_spec (m :: ms) x with ⟨_, h4⟩ | h3
      · rw [h4]
        rw [hp] at hlen
        simp only
        omega
      · rw [h3] at h
        simp [not_goesOn_script] at h

end Reference

/-! ## Configuration loading and the bootstrap -/

/-- A field with a plain tag, empty so far, gets the value of its variable. -/
theorem parseField_plain (env : Environ) (key : String) :
    parseField env (plainTag key) "" = (getenv env key, []) := by
  unfold parseField envGet plainTag getenv
  simp only [Bool.false_eq_true, if_false]
  by_cases h : (lookupEnv env key).getD "" = "" <;> simp [h]

/-- With the tags as written, `env.Parse` reports no error. -/
theorem envParse_tags (env : Environ) :
    envParse App.tags env App.zero = (none, App.ofEnv env) := by
  simp [envParse, App.tags, App.zero, App.ofEnv, parseField_plain]

/-- A field whose tag carries the `required` option makes `env.Parse` fail
when its variable is not set: the model of the library does have the failure
the tags of `App` do not ask for. -/
theorem envParse_required_missing (tags : AppTags) (env : Environ) (app : App)
    (hreq : tags.port.required = true) (hmiss : lookupEnv env tags.port.key = none) :
    (envParse tags env app).1 ≠ none := by
  simp [envParse, parseField, envGet, hreq, hmiss]

/-- The bootstrap starts by opening the connection with the DSN of the
configuration. -/
theorem bootstrap_head (w : World) :
    (bootstrap w).1.head? =
      some (Event.sqlxOpen "postgres" (dsnOf (App.ofEnv (processEnv w)))) := by
  simp only [bootstrap, envParse_tags]
  cases w.openErr (dsnOf (App.ofEnv (processEnv w))) <;> cases w.pingErr <;> simp

/-- The bootstrap never logs the message of the environment failure. -/
theorem bootstrap_messages (w : World) :
    "could not parse environment variables" ∉ messages (bootstrap w).1 := by
  simp only [bootstrap, envParse_tags]
  cases w.openErr (dsnOf (App.ofEnv (processEnv w))) <;> cases w.pingErr <;>
    simp [messages, entries, logFatal]

/-- The events of a bootstrap that succeeds. -/
theorem bootstrap_ok (w : World) (env : Environ) (app : App)
    (h : (bootstrap w).2 = some (env, app)) :
    bootstrap w =
      ([Event.sqlxOpen "postgres" (dsnOf app), Event.setConnMaxLifetime 3,
        Event.setMaxOpenConns 25, Event.setMaxIdleConns 25, Event.ping], some (env, app)) := by
  revert h
  simp only [bootstrap, envParse_tags]
  cases w.openErr (dsnOf (App.ofEnv (processEnv w))) <;> cases w.pingErr <;> simp
  intro h1 h2
  subst h1 h2
  simp

/-- The constructor does not log the message of the environment failure. -/
theorem NewMigrateHandler_messages (w : World) (env : Environ) (dbname : String) :
    "could not parse environment variables" ∉
      messages (Migrate.NewMigrateHandler w env dbname).1 := by
  unfold Migrate.NewMigrateHandler
  cases w.withInstanceErr <;> cases w.newInstanceErr <;>
    simp [messages, entries, logError]

/-- The runs of `main` of the migration runner, one by one. -/
theorem Migrate_main_cases (w : World) (E : Engine σ) (s : σ) :
    (∃ evs, bootstrap w = (evs, none) ∧ Migrate.main w E s = ⟨evs, Exit.fatal, s⟩) ∨
    (∃ evs env app evs2, bootstrap w = (evs, some (env, app)) ∧
      ((∃ err, Migrate.NewMigrateHandler w env app.MeetNRunDatabaseDatabase =
          (evs2, some err) ∧
        Migrate.main w E s = ⟨evs ++ evs2, Exit.normal, s⟩) ∨
       (Migrate.NewMigrateHandler w env app.MeetNRunDatabaseDatabase = (evs2, none) ∧
        ((Migrate.flagBool "d" false w.args = Migrate.Parsed.exit ∧
          Migrate.main w E s = ⟨evs ++ evs2 ++ [Event.flagParse], Exit.flagExit, s⟩) ∨
         (Migrate.flagBool "d" false w.args = Migrate.Parsed.value true ∧
          Migrate.main w E s =
            ⟨evs ++ evs2 ++ [Event.flagParse, Event.run Direction.down] ++ (Down E s).trace,
              Exit.normal, (Down E s).engine⟩) ∨
         (Migrate.flagBool "d" false w.args = Migrate.Parsed.value false ∧
          Migrate.main w E s =
            ⟨evs ++ evs2 ++ [Event.flagParse, Event.run Direction.up] ++ (Up E s).trace,
              Exit.normal, (Up E s).engine⟩))))) := by
  unfold Migrate.main
  rcases hbw : bootstrap w with ⟨evs, _ | ⟨env, app⟩⟩
  · left; exact ⟨evs, rfl, rfl⟩
  · right
    refine ⟨evs, env, app, ?_⟩
    simp only
    rcases hnw : Migrate.NewMigrateHandler w env app.MeetNRunDatabaseDatabase with
      ⟨evs2, _ | err⟩
    · refine ⟨evs2, trivial, ?_⟩
      rcases hf : Migrate.flagBool "d" false w.args with b | _
      · cases b <;> simp
      · simp
    · exact ⟨evs2, trivial, by simp⟩

/-- The fatal entries of two traces in a row. -/
theorem fatalEntries_append (a b : List Event) :
    fatalEntries (a ++ b) = fatalEntries a ++ fatalEntries b := by
  simp [fatalEntries, entries]

/-- A run of `Up` logs nothing at fatal level. -/
theorem Up_no_fatal (E : Engine σ) (s : σ) : fatalEntries (Up E s).trace = [] := by
  rw [Up_trace_eq]
  generalize firstQuery E s = q0
  generalize initStep E s = st
  generalize upAnswer E s = u
  generalize lastQueryUp E s = q1
  rcases q0 with ⟨v, d, _ | e⟩ <;> rcases q1 with ⟨v1, d1, _ | e1⟩ <;>
    rcases st with _ | e2 <;> simp only [upTrace] <;> split_ifs <;>
    simp [fatalEntries, entries, logError, logState, logInfo]

/-- A run of `Down` logs nothing at fatal level. -/
theorem Down_no_fatal (E : Engine σ) (s : σ) : fatalEntries (Down E s).trace = [] := by
  rw [Down_trace_eq]
  generalize firstQuery E s = q0
  generalize initStep E s = st
  generalize downAnswer E s = u
  generalize lastQueryDown E s = q1
  rcases q0 with ⟨v, d, _ | e⟩ <;> rcases q1 with ⟨v1, d1, _ | e1⟩ <;>
    rcases st with _ | e2 <;> simp only [downTrace] <;> split_ifs <;>
    simp [fatalEntries, entries, logError, logState, logInfo]

/-- The constructor logs nothing at fatal level and calls no handler
operation. -/
theorem NewMigrateHandler_plain (w : World) (env : Environ) (dbname : String) :
    fatalEntries (Migrate.NewMigrateHandler w env dbname).1 = [] ∧
    runs (Migrate.NewMigrateHandler w env dbname).1 = [] := by
  unfold Migrate.NewMigrateHandler
  cases w.withInstanceErr <;> cases w.newInstanceErr <;>
    simp [fatalEntries, entries, runs, logError]

/-- The bootstrap fails exactly on a failure of the environment parsing, of
the opening of the connection or of the ping, and then ends on a fatal entry
with the message of that failure; when it succeeds it logs nothing. -/
theorem bootstrap_fails_iff (w : World) :
    ((bootstrap w).2 = none ↔
      (envParse App.tags (processEnv w) App.zero).1 ≠ none ∨
      w.openErr (dsnOf (App.ofEnv (processEnv w))) ≠ none ∨ w.pingErr ≠ none) ∧
    ((bootstrap w).2 = none ↔ fatalEntries (bootstrap w).1 ≠ []) ∧
    (∀ entry ∈ fatalEntries (bootstrap w).1,
      entry.msg ∈ ["could not parse environment variables",
        "could not open database connection", "could not reach database"]) ∧
    runs (bootstrap w).1 = [] := by
  simp only [bootstrap, envParse_tags]
  cases w.openErr (dsnOf (App.ofEnv (processEnv w))) <;> cases w.pingErr <;>
    simp [fatalEntries, entries, runs, logFatal]

/-- The migration runner starts with the events of the bootstrap. -/
theorem Migrate_main_head (w : World) (E : Engine σ) (s : σ) :
    (Migrate.main w E s).trace.head? = (bootstrap w).1.head? := by
  have hb := bootstrap_head w
  rcases Migrate_main_cases w E s with ⟨evs, hbw, hm⟩ |
    ⟨evs, env, app, evs2, hbw, ⟨err, -, hm⟩ | ⟨-, ⟨-, hm⟩ | ⟨-, hm⟩ | ⟨-, hm⟩⟩⟩ <;>
    rw [hm, hbw] <;> rw [hbw] at hb <;> simp only at hb ⊢ <;>
    cases evs <;> simp at hb ⊢

/-- The migration runner never logs the message of the environment failure. -/
theorem Migrate_main_messages (w : World) (E : Engine σ) (s : σ) :
    "could not parse environment variables" ∉ messages (Migrate.main w E s).trace := by
  have hb := bootstrap_messages w
  rcases Migrate_main_cases w E s with ⟨evs, hbw, hm⟩ |
    ⟨evs, env, app, evs2, hbw, ⟨err, hnw, hm⟩ | ⟨hnw, ⟨-, hm⟩ | ⟨-, hm⟩ | ⟨-, hm⟩⟩⟩ <;>
    rw [hm] <;> rw [hbw] at hb <;> simp only at hb ⊢
  · exact hb
  all_goals
    have hn := NewMigrateHandler_messages w env app.MeetNRunDatabaseDatabase
    rw [hnw] at hn
    simp only at hn
    simp only [messages_append, List.mem_append, not_or]
  · exact ⟨hb, hn⟩
  · exact ⟨⟨hb, hn⟩, by simp [messages, entries]⟩
  · rw [Down_trace_eq]
    exact ⟨⟨⟨hb, hn⟩, by simp [messages, entries]⟩, (downTrace_plain _ _ _ _).2⟩
  · rw [Up_trace_eq]
    exact ⟨⟨⟨hb, hn⟩, by simp [messages, entries]⟩, (upTrace_plain _ _ _ _).2⟩

/-- The process ends on `log.Fatal` exactly when the bootstrap fails, and
exactly then is there an entry at fatal level. -/
theorem Migrate_main_fatal (w : World) (E : Engine σ) (s : σ) :
    ((Migrate.main w E s).exit = Exit.fatal ↔ (bootstrap w).2 = none) ∧
    fatalEntries (Migrate.main w E s).trace = fatalEntries (bootstrap w).1 := by
  rcases Migrate_main_cases w E s with ⟨evs, hbw, hm⟩ |
    ⟨evs, env, app, evs2, hbw, ⟨err, hnw, hm⟩ | ⟨hnw, ⟨-, hm⟩ | ⟨-, hm⟩ | ⟨-, hm⟩⟩⟩ <;>
    rw [hm, hbw]
  · simp
  all_goals
    have hn := (NewMigrateHandler_plain w env app.MeetNRunDatabaseDatabase).1
    rw [hnw] at hn
    simp only at hn
    have h1 : fatalEntries [Event.flagParse] = [] := by simp [fatalEntries, entries]
    have h2 : fatalEntries [Event.flagParse, Event.run Direction.down] = [] := by
      simp [fatalEntries, entries]
    have h3 : fatalEntries [Event.flagParse, Event.run Direction.up] = [] := by
      simp [fatalEntries, entries]
    simp only [fatalEntries_append, hn, h1, h2, h3, Up_no_fatal, Down_no_fatal,
      List.append_nil]
    simp

/-- A command line that is accepted and in which no argument reads as the
flag leaves the flag at its default. -/
theorem flagBool_absent (name : String) (dflt b : Bool) (args : List String)
    (h : ∀ a ∈ args, Migrate.namesFlag name a = false)
    (hv : Migrate.flagBool name dflt args = Migrate.Parsed.value b) : b = dflt := by
  cases args with
  | nil => simp [Migrate.flagBool] at hv; exact hv.symm
  | cons a rest =>
    have ha := h a (by simp)
    unfold Migrate.flagBool at hv
    unfold Migrate.namesFlag at ha
    cases hr : Migrate.readArg a with
    | nonFlag => simp [hr] at hv; exact hv.symm
    | terminator => simp [hr] at hv; exact hv.symm
    | bad => simp [hr] at hv
    | flag n v =>
      simp [hr] at ha
      simp [hr, ha] at hv

/-- The argument `-d` sets the flag `d` to true. -/
theorem flagBool_dash_d (dflt : Bool) (rest : List String) :
    Migrate.flagBool "d" dflt ("-d" :: rest) = Migrate.flagBool "d" true rest := by
  have h : Migrate.readArg "-d" = Migrate.Arg.flag "d" none := by decide
  rw [Migrate.flagBool, h]
  simp

/-- After an argument `-d`, a command line that is accepted and in which no
further argument reads as the flag `d` leaves it true. -/
theorem flagBool_set (dflt b : Bool) (rest : List String)
    (h : ∀ a ∈ rest, Migrate.namesFlag "d" a = false)
    (hv : Migrate.flagBool "d" dflt ("-d" :: rest) = Migrate.Parsed.value b) : b = true := by
  rw [flagBool_dash_d] at hv
  exact flagBool_absent "d" true b rest h hv

/-! ## C1: a missing environment variable -/

/-- C1 fails as stated: with `MEETNRUN_DATABASE_PORT` not set, `env.Parse`
reports no error; both programs build the DSN with an empty port and open
the connection with it, and the fatal entry they end on is that of the ping,
"could not reach database", not "could not parse environment variables". -/
theorem parse_fails_on_missing_variable_counterexample :
    lookupEnv (processEnv Sample.portless) "MEETNRUN_DATABASE_PORT" = none ∧
    (envParse App.tags (processEnv Sample.portless) App.zero).1 = none ∧
    (Server.main Sample.portless).trace =
      [Event.sqlxOpen "postgres"
        "host=localhost port= user=run password=secret dbname=meetnrun sslmode=disable",
       Event.setConnMaxLifetime 3, Event.setMaxOpenConns 25, Event.setMaxIdleConns 25,
       Event.ping,
       logFatal (GoError.other "could not connect") "could not reach database"] ∧
    "could not parse environment variables" ∉ messages (Server.main Sample.portless).trace ∧
    (Migrate.main Sample.portless Reference.engine Sample.fresh).trace =
      (Server.main Sample.portless).trace := by
  decide

/-- C1, as the code has it. For every environment, whether or not the five
variables are set, `env.Parse` into `App` with the tags as written (none
carries the `required` option) succeeds and each field holds the value of
its variable, the empty string when the variable is not set. Neither `main`
logs "could not parse environment variables"; both go on to build the DSN
from these fields and to open the connection with it. -/
theorem parse_succeeds_without_required (w : World) (E : Engine σ) (s : σ) :
    envParse App.tags (processEnv w) App.zero = (none, App.ofEnv (processEnv w)) ∧
    "could not parse environment variables" ∉ messages (Server.main w).trace ∧
    "could not parse environment variables" ∉ messages (Migrate.main w E s).trace ∧
    (Server.main w).trace.head? =
      some (Event.sqlxOpen "postgres" (dsnOf (App.ofEnv (processEnv w)))) ∧
    (Migrate.main w E s).trace.head? =
      some (Event.sqlxOpen "postgres" (dsnOf (App.ofEnv (processEnv w)))) := by
  refine ⟨envParse_tags _, ?_, Migrate_main_messages w E s, ?_, ?_⟩
  · have hb := bootstrap_messages w
    unfold Server.main
    rcases hbw : bootstrap w with ⟨evs, _ | ⟨env, app⟩⟩ <;> rw [hbw] at hb <;> exact hb
  · have hb := bootstrap_head w
    unfold Server.main
    rcases hbw : bootstrap w with ⟨evs, _ | ⟨env, app⟩⟩ <;> rw [hbw] at hb <;> exact hb
  · rw [Migrate_main_head, bootstrap_head]

/-! ## C2: the initialization step of `Up` -/

/-- C2. When the first version query of `Up` answers `ErrNilVersion`, the
engine's `Steps(1)` is called exactly once, no other `Steps` call is made,
and the calls start with `Version`, `Steps(1)`, so that `Steps(1)` comes
before any call of the engine's `Up`; when that `Steps(1)` succeeds, the
engine's `Up` is called exactly once, as the third call. When the first
version query succeeds, `Steps` is never called. -/
theorem Up_initializes_once_before_up (E : Engine σ) (s : σ) :
    (nilVersion (firstQuery E s) = true →
      (calls (Up E s).trace).count (Call.steps 1) = 1 ∧
      (∀ n, Call.steps n ∈ calls (Up E s).trace → n = 1) ∧
      (calls (Up E s).trace).take 2 = [Call.version, Call.steps 1] ∧
      (initStep E s = none →
        (calls (Up E s).trace).count Call.up = 1 ∧
        (calls (Up E s).trace).take 3 = [Call.version, Call.steps 1, Call.up])) ∧
    ((firstQuery E s).err = none → ∀ n, Call.steps n ∉ calls (Up E s).trace) := by
  rw [Up_trace_eq]
  generalize firstQuery E s = q0
  generalize initStep E s = st
  generalize upAnswer E s = u
  generalize lastQueryUp E s = q1
  rcases q0 with ⟨v, d, err⟩
  rcases q1 with ⟨v1, d1, err1⟩
  by_cases hlt : v1 > v
  all_goals
    constructor
    · intro h
      cases err with
      | none => simp [nilVersion] at h
      | some e =>
        simp only [nilVersion] at h
        cases st <;> cases hg : goesOn u <;> cases err1 <;>
          simp [upTrace, h, hg, hlt, calls, Event.call?, logError, logState, logInfo]
    · intro h
      simp only at h
      subst h
      cases hg : goesOn u <;> cases err1 <;>
        simp [upTrace, hg, hlt, calls, Event.call?, logError, logState, logInfo]

/-- C2 on a fresh database with two migrations (first query `ErrNilVersion`,
`Steps(1)` succeeds) and on a database at version 2. -/
theorem Up_initializes_once_before_up_witness :
    nilVersion (firstQuery Reference.engine Sample.fresh) = true ∧
    initStep Reference.engine Sample.fresh = none ∧
    (calls (Up Reference.engine Sample.fresh).trace).count (Call.steps 1) = 1 ∧
    (calls (Up Reference.engine Sample.fresh).trace).count Call.up = 1 ∧
    (firstQuery Reference.engine Sample.atTwo).err = none ∧
    (∀ n, Call.steps n ∉ calls (Up Reference.engine Sample.atTwo).trace) :=
  ⟨by decide, by decide,
   ((Up_initializes_once_before_up Reference.engine Sample.fresh).1 (by decide)).1,
   (((Up_initializes_once_before_up Reference.engine Sample.fresh).1 (by decide)).2.2.2
      (by decide)).1,
   by decide,
   (Up_initializes_once_before_up Reference.engine Sample.atTwo).2 (by decide)⟩

/-! ## C3: `Up` twice -/

/-- C3 fails as stated: on a fresh database whose first migration fails, the
first `Up` leaves the database dirty at version 1, and the second `Up` ends
on the error entry "Error migrating up", not on "Nothing to migrate". -/
theorem Up_twice_counterexample :
    (Up Reference.engine Sample.failingFirst).engine = ⟨[⟨1, false, true⟩], 1, true⟩ ∧
    (Up Reference.engine (Up Reference.engine Sample.failingFirst).engine).trace =
      [Event.version ⟨1, true, none⟩, logState 1 true "Got current migration state",
       Event.up (some Reference.ErrDirty),
       logError Reference.ErrDirty "Error migrating up"] ∧
    "Nothing to migrate" ∉
      messages (Up Reference.engine (Up Reference.engine Sample.failingFirst).engine).trace := by
  decide

/-- C3, as the code has it (on the reference engine). When a first run of
`Up` logs no error, a second run of `Up` on the state the first one leaves
ends with "Nothing to migrate", and logs neither an error nor "Successfully
migrated". -/
theorem Up_twice_nothing_to_migrate (db : Reference.Database)
    (h : errorEntries (Up Reference.engine db).trace = []) :
    (Up Reference.engine (Up Reference.engine db).engine).trace.getLast? =
      some (logInfo "Nothing to migrate") ∧
    errorEntries (Up Reference.engine (Up Reference.engine db).engine).trace = [] ∧
    "Successfully migrated" ∉
      messages (Up Reference.engine (Up Reference.engine db).engine).trace := by
  obtain ⟨hr, hg, hq⟩ := Up_no_error _ _ h
  have hy : (Up Reference.engine db).engine =
      (Reference.Up (atRun Reference.engine db)).2 := by
    rw [Up_engine_eq _ _ hr hg, Reference.getVersion_state]
    rfl
  obtain ⟨hd, hup⟩ := Reference.Up_settled (atRun Reference.engine db) hg
  have hq' : (getVersion Reference.engine
      (Reference.Up (atRun Reference.engine db)).2).1.err = none := hq
  rw [hy]
  generalize (Reference.Up (atRun Reference.engine db)).2 = y at hd hup hq'
  obtain ⟨v, hv⟩ : ∃ v, (getVersion Reference.engine y).1 = ⟨v, false, none⟩ := by
    rw [Reference.getVersion_answer] at hq' ⊢
    cases hrec : Reference.recorded y with
    | none => simp [hrec] at hq'
    | some v => exact ⟨v, by simp [hd]⟩
  have h0 : firstQuery Reference.engine y = ⟨v, false, none⟩ := hv
  have hat : atRun Reference.engine y = y := by
    simp [atRun, h0, nilVersion, Reference.getVersion_state]
  have hu : upAnswer Reference.engine y = some GoError.ErrNoChange := by
    show (Reference.Up (atRun Reference.engine y)).1 = _
    rw [hat, hup]
  have h1 : lastQueryUp Reference.engine y = ⟨v, false, none⟩ := by
    show (getVersion Reference.engine (Reference.Up (atRun Reference.engine y)).2).1 = _
    rw [hat, hup]
    exact hv
  rw [Up_trace_eq, h0, hu, h1]
  simp [upTrace, goesOn, errorsIs, errorEntries, messages, entries, logState, logInfo]

/-- C3 as amended, on a fresh database with two migrations. -/
theorem Up_twice_nothing_to_migrate_witness :
    errorEntries (Up Reference.engine Sample.fresh).trace = [] ∧
    (Up Reference.engine (Up Reference.engine Sample.fresh).engine).trace.getLast? =
      some (logInfo "Nothing to migrate") :=
  ⟨by decide, (Up_twice_nothing_to_migrate Sample.fresh (by decide)).1⟩

/-! ## C4: what `Down` rolls back -/

/-- C4 fails as stated: on a database at version 2 of two migrations, a `Down`
run that logs no error leaves no version recorded, where the engine's
`Steps(-1)` would leave version 1; the handler calls the engine's `Down`
between its two queries. -/
theorem Down_one_step_counterexample :
    Reference.recorded Sample.atTwo = some 2 ∧
    errorEntries (Down Reference.engine Sample.atTwo).trace = [] ∧
    Reference.recorded (Down Reference.engine Sample.atTwo).engine = none ∧
    Reference.recorded (Reference.Steps (-1) Sample.atTwo).2 = some 1 ∧
    calls (Down Reference.engine Sample.atTwo).trace =
      [Call.version, Call.down, Call.version] := by
  decide

/-- C4, as the code has it (on the reference engine). On a database whose
recorded version is the n-th migration, n >= 1, a run of `Down` that logs no
error leaves no version recorded, whatever n is: the handler calls the
engine's `Down` once, between its two version queries, and never `Steps`,
and the state it leaves is the one the engine's `Down` leaves. -/
theorem Down_rolls_back_everything (db : Reference.Database) (h1 : 1 ≤ db.applied)
    (h2 : db.applied ≤ db.source.length)
    (h : errorEntries (Down Reference.engine db).trace = []) :
    Reference.recorded (Down Reference.engine db).engine = none ∧
    (Down Reference.engine db).engine = (Reference.Down db).2 ∧
    calls (Down Reference.engine db).trace = [Call.version, Call.down, Call.version] := by
  obtain ⟨hr, hg⟩ := Down_no_error _ _ h
  obtain ⟨v, hv⟩ : ∃ v, (getVersion Reference.engine db).1 = ⟨v, db.dirty, none⟩ := by
    rw [Reference.getVersion_answer]
    have hlt : db.applied - 1 < db.source.length := by omega
    have hrec : Reference.recorded db = some (db.source[db.applied - 1]).version := by
      unfold Reference.recorded
      obtain ⟨k, hk⟩ : ∃ k, db.applied = k + 1 := ⟨db.applied - 1, by omega⟩
      simp only [hk]
      simp [List.getElem?_eq_getElem (show k < db.source.length by omega)]
    exact ⟨_, by rw [hrec]⟩
  have h0 : firstQuery Reference.engine db = ⟨v, db.dirty, none⟩ := hv
  have hat : atRun Reference.engine db = db := by
    simp [atRun, h0, nilVersion, Reference.getVersion_state]
  have hg' : goesOn (Reference.Down db).1 = true := by
    have : goesOn (Reference.Down (atRun Reference.engine db)).1 = true := hg
    rwa [hat] at this
  have hz := Reference.Down_settled db h1 h2 hg'
  have he : (Down Reference.engine db).engine = (Reference.Down db).2 := by
    rw [Down_engine_eq _ _ hr hg, Reference.getVersion_state, hat]
    rfl
  have hnil : Reference.recorded (Reference.Down db).2 = none := by
    unfold Reference.recorded
    rw [hz]
  refine ⟨by rw [he]; exact hnil, he, ?_⟩
  have hu : downAnswer Reference.engine db = (Reference.Down db).1 := by
    show (Reference.Down (atRun Reference.engine db)).1 = _
    rw [hat]
  have hl : lastQueryDown Reference.engine db =
      ⟨0, false, some GoError.ErrNilVersion⟩ := by
    show (getVersion Reference.engine (Reference.Down (atRun Reference.engine db)).2).1 = _
    rw [hat, Reference.getVersion_answer, hnil]
  rw [Down_trace_eq, h0, hu, hl]
  have hself : errorsIs GoError.ErrNilVersion GoError.ErrNilVersion = true := by decide
  simp only [downTrace, hg', hself]
  split_ifs <;> simp [calls, Event.call?, logState, logInfo]

/-- C4 as amended, on a database at version 2 of two migrations. -/
theorem Down_rolls_back_everything_witness :
    1 ≤ Sample.atTwo.applied ∧ Sample.atTwo.applied ≤ Sample.atTwo.source.length ∧
    errorEntries (Down Reference.engine Sample.atTwo).trace = [] ∧
    Reference.recorded (Down Reference.engine Sample.atTwo).engine = none :=
  ⟨by decide, by decide, by decide,
   (Down_rolls_back_everything Sample.atTwo (by decide) (by decide) (by decide)).1⟩

/-! ## C5: the final report of `Down` -/

/-- C5. In every run of `Down`, an entry "Successfully migrated" is logged
only when the run got to the second version query and the version it read
there is strictly smaller than the version read by the first query (a
missing version counting as 0); the entry carries that second version and
dirty flag. A run that logs no error and in which the version did not
strictly decrease ends with "Nothing to migrate". In particular, at version
1, when the engine's `Down` succeeds and the second query answers
`ErrNilVersion`, the run ends with "Successfully migrated" at version 0
and logs no error. -/
theorem Down_reports_success_only_on_decrease (E : Engine σ) (s : σ) :
    (∀ entry ∈ entries (Down E s).trace, entry.msg = "Successfully migrated" →
      reachesRun E s = true ∧ goesOn (downAnswer E s) = true ∧
      (lastQueryDown E s).version < (firstQuery E s).version ∧
      entry = ⟨Level.info, "Successfully migrated", none,
        some ((lastQueryDown E s).version, (lastQueryDown E s).dirty)⟩) ∧
    (errorEntries (Down E s).trace = [] →
      ¬ (lastQueryDown E s).version < (firstQuery E s).version →
      (Down E s).trace.getLast? = some (logInfo "Nothing to migrate")) ∧
    (∀ d, firstQuery E s = ⟨1, d, none⟩ → downAnswer E s = none →
      (lastQueryDown E s).err = some GoError.ErrNilVersion →
      (Down E s).trace =
        [Event.version ⟨1, d, none⟩, logState 1 d "Got current migration state",
         Event.down none, Event.version ⟨0, false, some GoError.ErrNilVersion⟩,
         logState 0 false "Successfully migrated"]) := by
  refine ⟨?_, ?_, ?_⟩
  · rw [Down_trace_eq]
    unfold reachesRun
    generalize firstQuery E s = q0
    generalize initStep E s = st
    generalize downAnswer E s = u
    generalize lastQueryDown E s = q1
    rcases q0 with ⟨v, d, err⟩
    rcases q1 with ⟨v1, d1, err1⟩
    intro entry
    rcases err with _ | e <;> rcases err1 with _ | e1 <;> rcases st with _ | e2 <;>
      simp only [downTrace] <;> split_ifs <;>
      simp [entries, logError, logState, logInfo, *] <;>
      (try (rintro (rfl | rfl) <;> simp))
  · rw [Down_trace_eq]
    unfold errorEntries
    generalize firstQuery E s = q0
    generalize initStep E s = st
    generalize downAnswer E s = u
    generalize lastQueryDown E s = q1
    rcases q0 with ⟨v, d, err⟩
    rcases q1 with ⟨v1, d1, err1⟩
    intro h hlt
    simp only at hlt
    revert h
    rcases err with _ | e <;> rcases err1 with _ | e1 <;> rcases st with _ | e2 <;>
      simp only [downTrace] <;> split_ifs <;>
      simp [entries, logError, logState, logInfo, *]
  · intro d h0 hu h1
    rw [Down_trace_eq, lastQueryDown_of_err E s _ h1, h0, hu]
    simp [downTrace, goesOn, errorsIs]

/-- C5 on a database at version 1 with a single migration, rolled back without
error, and on an engine with nothing to roll back. -/
theorem Down_reports_success_only_on_decrease_witness :
    firstQuery Reference.engine Sample.atOne = ⟨1, false, none⟩ ∧
    downAnswer Reference.engine Sample.atOne = none ∧
    (lastQueryDown Reference.engine Sample.atOne).err = some GoError.ErrNilVersion ∧
    (Down Reference.engine Sample.atOne).trace =
      [Event.version ⟨1, false, none⟩, logState 1 false "Got current migration state",
       Event.down none, Event.version ⟨0, false, some GoError.ErrNilVersion⟩,
       logState 0 false "Successfully migrated"] ∧
    (lastQueryDown Reference.engine Sample.atOne).version <
      (firstQuery Reference.engine Sample.atOne).version ∧
    errorEntries (Down Scripted.engine Sample.idle).trace = [] ∧
    (Down Scripted.engine Sample.idle).trace.getLast? = some (logInfo "Nothing to migrate") :=
  ⟨by decide, by decide, by decide,
   (Down_reports_success_only_on_decrease Reference.engine Sample.atOne).2.2 false
     (by decide) (by decide) (by decide),
   ((Down_reports_success_only_on_decrease Reference.engine Sample.atOne).1
     ⟨Level.info, "Successfully migrated", none, some (0, false)⟩ (by decide) rfl).2.2.1,
   by decide,
   (Down_reports_success_only_on_decrease Scripted.engine Sample.idle).2.1
     (by decide) (by decide)⟩

/-! ## C6: `Down` without a recorded version -/

/-- C6. When the first version query of `Down` answers `ErrNilVersion`,
`Down` does not log "Error getting migration version"; it calls the
engine's `Steps(1)` exactly once (and no other `Steps`), right after the
query; and when that step succeeds the run goes on with the log of the
current state, version 0 and dirty false, and the call of the engine's
`Down`. -/
theorem Down_nil_version_initializes (E : Engine σ) (s : σ)
    (h : nilVersion (firstQuery E s) = true) :
    "Error getting migration version" ∉ messages (Down E s).trace ∧
    (calls (Down E s).trace).count (Call.steps 1) = 1 ∧
    (∀ n, Call.steps n ∈ calls (Down E s).trace → n = 1) ∧
    (calls (Down E s).trace).take 2 = [Call.version, Call.steps 1] ∧
    (initStep E s = none →
      (Down E s).trace.take 4 =
        [Event.version (firstQuery E s), Event.steps 1 none,
         logState 0 false "Got current migration state",
         Event.down (downAnswer E s)]) := by
  rw [Down_trace_eq]
  have hq : ∃ e, (firstQuery E s).err = some e := by
    cases he : (firstQuery E s).err with
    | none => simp [nilVersion, he] at h
    | some e => exact ⟨e, rfl⟩
  obtain ⟨e, he⟩ := hq
  rw [firstQuery_of_err E s e he] at h ⊢
  generalize initStep E s = st
  generalize downAnswer E s = u
  generalize lastQueryDown E s = q1
  rcases q1 with ⟨v1, d1, err1⟩
  simp only [nilVersion] at h
  rcases err1 with _ | e1
  · cases st <;> cases hg : goesOn u <;>
      simp [downTrace, h, hg, calls, messages, entries, Event.call?, logError, logState,
        logInfo]
  · by_cases hn : errorsIs e1 GoError.ErrNilVersion = true <;> cases st <;>
      cases hg : goesOn u <;>
      simp [downTrace, h, hg, hn, calls, messages, entries, Event.call?, logError, logState,
        logInfo]

/-- C6 on a fresh database with two migrations. -/
theorem Down_nil_version_initializes_witness :
    nilVersion (firstQuery Reference.engine Sample.fresh) = true ∧
    "Error getting migration version" ∉ messages (Down Reference.engine Sample.fresh).trace ∧
    (calls (Down Reference.engine Sample.fresh).trace).count (Call.steps 1) = 1 ∧
    (Down Reference.engine Sample.fresh).trace.take 4 =
      [Event.version ⟨0, false, some GoError.ErrNilVersion⟩, Event.steps 1 none,
       logState 0 false "Got current migration state", Event.down none] :=
  ⟨by decide,
   (Down_nil_version_initializes Reference.engine Sample.fresh (by decide)).1,
   (Down_nil_version_initializes Reference.engine Sample.fresh (by decide)).2.1,
   (Down_nil_version_initializes Reference.engine Sample.fresh (by decide)).2.2.2.2
     (by decide)⟩

/-! ## C7: a handler that cannot be built -/

/-- C7 fails as stated: with the five variables set and the database
reachable, when the migration driver cannot be created the constructor logs
at error level and `main` of the migration runner returns normally, with
nothing logged at fatal level. -/
theorem construction_failure_counterexample :
    (bootstrap Sample.noDriver).2 = some (Sample.fullEnv, Sample.fullApp) ∧
    (Migrate.NewMigrateHandler Sample.noDriver Sample.fullEnv "meetnrun").2 =
      some (GoError.other "driver") ∧
    (Migrate.main Sample.noDriver Reference.engine Sample.fresh).trace =
      [Event.sqlxOpen "postgres"
        "host=localhost port=5432 user=run password=secret dbname=meetnrun sslmode=disable",
       Event.setConnMaxLifetime 3, Event.setMaxOpenConns 25, Event.setMaxIdleConns 25,
       Event.ping, Event.withInstance,
       logError (GoError.other "driver") "Error creating postgres migrate driver"] ∧
    (Migrate.main Sample.noDriver Reference.engine Sample.fresh).exit = Exit.normal ∧
    fatalEntries (Migrate.main Sample.noDriver Reference.engine Sample.fresh).trace = [] := by
  decide

/-- C7, as the code has it. When the bootstrap succeeds and
`NewMigrateHandler` fails, `main` of the migration runner returns normally:
nothing is logged at fatal level, the one error entry is the one the
constructor logged, with the constructor's error, and neither `Up` nor
`Down` is called, nor the flags parsed, nor the engine touched. The process
ends on `log.Fatal` exactly when the environment parsing, the opening of the
connection or the ping fails; exactly then is there an entry at fatal
level, and its message is that of one of these three failures. -/
theorem construction_failure_returns_normally (w : World) (E : Engine σ) (s : σ) :
    (∀ env app err, (bootstrap w).2 = some (env, app) →
      (Migrate.NewMigrateHandler w env app.MeetNRunDatabaseDatabase).2 = some err →
      (Migrate.main w E s).exit = Exit.normal ∧
      fatalEntries (Migrate.main w E s).trace = [] ∧
      (errorEntries (Migrate.main w E s).trace).map LogEntry.err = [some err] ∧
      runs (Migrate.main w E s).trace = [] ∧
      calls (Migrate.main w E s).trace = [] ∧
      Event.flagParse ∉ (Migrate.main w E s).trace ∧
      (Migrate.main w E s).engine = s) ∧
    ((Migrate.main w E s).exit = Exit.fatal ↔
      (envParse App.tags (processEnv w) App.zero).1 ≠ none ∨
      w.openErr (dsnOf (App.ofEnv (processEnv w))) ≠ none ∨ w.pingErr ≠ none) ∧
    ((Migrate.main w E s).exit = Exit.fatal ↔
      fatalEntries (Migrate.main w E s).trace ≠ []) ∧
    (∀ entry ∈ fatalEntries (Migrate.main w E s).trace,
      entry.msg ∈ ["could not parse environment variables",
        "could not open database connection", "could not reach database"]) := by
  obtain ⟨hexit, hfatal⟩ := Migrate_main_fatal w E s
  obtain ⟨hb1, hb2, hb3, -⟩ := bootstrap_fails_iff w
  refine ⟨?_, hexit.trans hb1, ?_, ?_⟩
  · intro env app err hb hc
    have hbw := bootstrap_ok w env app hb
    unfold Migrate.main
    rw [hbw]
    simp only
    revert hc
    unfold Migrate.NewMigrateHandler
    rcases w.withInstanceErr with _ | e1 <;> rcases w.newInstanceErr with _ | e2 <;>
      simp [fatalEntries, errorEntries, entries, runs, calls, Event.call?, logError]
  · rw [hfatal]
    exact hexit.trans hb2
  · rw [hfatal]
    exact hb3

/-- C7 as amended, in a world where the environment is complete, the
database reachable and the migration driver cannot be created, and in a
world where the ping fails. -/
theorem construction_failure_returns_normally_witness :
    (bootstrap Sample.noDriver).2 = some (Sample.fullEnv, Sample.fullApp) ∧
    (Migrate.NewMigrateHandler Sample.noDriver Sample.fullEnv "meetnrun").2 =
      some (GoError.other "driver") ∧
    (Migrate.main Sample.noDriver Reference.engine Sample.fresh).exit = Exit.normal ∧
    fatalEntries (Migrate.main Sample.noDriver Reference.engine Sample.fresh).trace = [] ∧
    runs (Migrate.main Sample.noDriver Reference.engine Sample.fresh).trace = [] ∧
    Sample.noDatabase.pingErr ≠ none ∧
    (Migrate.main Sample.noDatabase Reference.engine Sample.fresh).exit = Exit.fatal :=
  ⟨by decide, by decide,
   ((construction_failure_returns_normally Sample.noDriver Reference.engine Sample.fresh).1
      Sample.fullEnv Sample.fullApp (GoError.other "driver") (by decide) (by decide)).1,
   ((construction_failure_returns_normally Sample.noDriver Reference.engine Sample.fresh).1
      Sample.fullEnv Sample.fullApp (GoError.other "driver") (by decide) (by decide)).2.1,
   ((construction_failure_returns_normally Sample.noDriver Reference.engine Sample.fresh).1
      Sample.fullEnv Sample.fullApp (GoError.other "driver") (by decide)
      (by decide)).2.2.2.1,
   by decide,
   (construction_failure_returns_normally Sample.noDatabase Reference.engine
      Sample.fresh).2.1.2 (Or.inr (Or.inr (by decide)))⟩

/-! ## C8: the final report of `Up` -/

/-- C8 fails as stated: when the version read after the engine's `Up` is 1 and
the version read before is 2, the two differ, no error is logged, and `Up`
logs "Nothing to migrate", not "Successfully migrated". -/
theorem Up_report_counterexample :
    (Up Scripted.engine Sample.rolledBack).trace =
      [Event.version ⟨2, false, none⟩, logState 2 false "Got current migration state",
       Event.up (some GoError.ErrNoChange), Event.version ⟨1, false, none⟩,
       logInfo "Nothing to migrate"] ∧
    (lastQueryUp Scripted.engine Sample.rolledBack).version ≠
      (firstQuery Scripted.engine Sample.rolledBack).version ∧
    errorEntries (Up Scripted.engine Sample.rolledBack).trace = [] ∧
    "Successfully migrated" ∉ messages (Up Scripted.engine Sample.rolledBack).trace := by
  decide

/-- C8, as the code has it. A run of `Up` that logs no error got to the
second version query, and that query succeeded; it ends with "Nothing to
migrate" when the version read there is not greater than the version read
first (equal or smaller, a missing first version counting as 0), and with
"Successfully migrated", carrying the new version and dirty flag, when it is
strictly greater. -/
theorem Up_final_report (E : Engine σ) (s : σ) (h : errorEntries (Up E s).trace = []) :
    reachesRun E s = true ∧ goesOn (upAnswer E s) = true ∧ (lastQueryUp E s).err = none ∧
    ((lastQueryUp E s).version ≤ (firstQuery E s).version →
      (Up E s).trace.getLast? = some (logInfo "Nothing to migrate") ∧
      "Successfully migrated" ∉ messages (Up E s).trace) ∧
    ((firstQuery E s).version < (lastQueryUp E s).version →
      (Up E s).trace.getLast? =
        some (logState (lastQueryUp E s).version (lastQueryUp E s).dirty
          "Successfully migrated") ∧
      "Nothing to migrate" ∉ messages (Up E s).trace) := by
  revert h
  rw [Up_trace_eq]
  unfold reachesRun errorEntries messages
  generalize firstQuery E s = q0
  generalize initStep E s = st
  generalize upAnswer E s = u
  generalize lastQueryUp E s = q1
  rcases q0 with ⟨v, d, err⟩
  rcases q1 with ⟨v1, d1, err1⟩
  rcases err with _ | e <;> rcases err1 with _ | e1 <;> rcases st with _ | e2 <;>
    simp only [upTrace] <;> split_ifs <;>
    simp [entries, logError, logState, logInfo, *]

/-- C8 as amended, on a fresh database with two migrations and on a database
rolled back between the engine's `Up` and the second query. -/
theorem Up_final_report_witness :
    errorEntries (Up Reference.engine Sample.fresh).trace = [] ∧
    (Up Reference.engine Sample.fresh).trace.getLast? =
      some (logState 2 false "Successfully migrated") ∧
    errorEntries (Up Scripted.engine Sample.rolledBack).trace = [] ∧
    (Up Scripted.engine Sample.rolledBack).trace.getLast? =
      some (logInfo "Nothing to migrate") :=
  ⟨by decide,
   ((Up_final_report Reference.engine Sample.fresh (by decide)).2.2.2.2 (by decide)).1,
   by decide,
   ((Up_final_report Scripted.engine Sample.rolledBack (by decide)).2.2.2.1 (by decide)).1⟩

/-! ## C9: abort on error -/

/-- C9. Abort on error in `Up` and `Down`. When the first version query
fails with an error other than `ErrNilVersion`, or the initialization
`Steps(1)` fails, or the engine's `Up` (resp. `Down`) fails with an error
other than `ErrNoChange`, or the second version query fails with an error
other than `ErrNilVersion`, the run ends right there: the failing call is
followed by one error entry and nothing else, that entry is the only one at
error level, nothing is logged at fatal level, and neither "Successfully
migrated" nor "Nothing to migrate" is logged. An `ErrNoChange` from the
engine's `Up` or `Down` does not abort: the second version query follows. -/
theorem abort_on_error (E : Engine σ) (s : σ) :
    (∀ e, (firstQuery E s).err = some e → errorsIs e GoError.ErrNilVersion = false →
      AbortedAfter (Up E s).trace (Event.version (firstQuery E s))
        ⟨Level.error, "Error getting migration version", some e, none⟩ ∧
      AbortedAfter (Down E s).trace (Event.version (firstQuery E s))
        ⟨Level.error, "Error getting migration version", some e, none⟩) ∧
    (∀ e, nilVersion (firstQuery E s) = true → initStep E s = some e →
      AbortedAfter (Up E s).trace (Event.steps 1 (some e))
        ⟨Level.error, "Error initializing first migration", some e, none⟩ ∧
      AbortedAfter (Down E s).trace (Event.steps 1 (some e))
        ⟨Level.error, "Error initializing first migration", some e, none⟩) ∧
    (∀ e, reachesRun E s = true → upAnswer E s = some e →
      errorsIs e GoError.ErrNoChange = false →
      AbortedAfter (Up E s).trace (Event.up (some e))
        ⟨Level.error, "Error migrating up", some e, none⟩) ∧
    (∀ e, reachesRun E s = true → downAnswer E s = some e →
      errorsIs e GoError.ErrNoChange = false →
      AbortedAfter (Down E s).trace (Event.down (some e))
        ⟨Level.error, "Error migrating down", some e, none⟩) ∧
    (∀ e, reachesRun E s = true → goesOn (upAnswer E s) = true →
      (lastQueryUp E s).err = some e → errorsIs e GoError.ErrNilVersion = false →
      AbortedAfter (Up E s).trace (Event.version (lastQueryUp E s))
        ⟨Level.error, "Error getting new migration version", some e, none⟩) ∧
    (∀ e, reachesRun E s = true → goesOn (downAnswer E s) = true →
      (lastQueryDown E s).err = some e → errorsIs e GoError.ErrNilVersion = false →
      AbortedAfter (Down E s).trace (Event.version (lastQueryDown E s))
        ⟨Level.error, "Error getting new migration version", some e, none⟩) ∧
    (∀ e, reachesRun E s = true → upAnswer E s = some e →
      errorsIs e GoError.ErrNoChange = true →
      (calls (Up E s).trace).reverse.take 2 = [Call.version, Call.up] ∧
      "Error migrating up" ∉ messages (Up E s).trace) ∧
    (∀ e, reachesRun E s = true → downAnswer E s = some e →
      errorsIs e GoError.ErrNoChange = true →
      (calls (Down E s).trace).reverse.take 2 = [Call.version, Call.down] ∧
      "Error migrating down" ∉ messages (Down E s).trace) := by
  rw [Up_trace_eq, Down_trace_eq]
  refine ⟨?_, ?_, ?_, ?_, ?_, ?_, ?_, ?_⟩
  · intro e h hn
    exact ⟨upTrace_abort_first _ _ _ _ e h hn, downTrace_abort_first _ _ _ _ e h hn⟩
  · intro e h hst
    rw [hst]
    exact ⟨upTrace_abort_init _ _ _ e h, downTrace_abort_init _ _ _ e h⟩
  · intro e h hu hn
    rw [hu]
    exact upTrace_abort_run _ _ _ e (reaches_cases _ _ h) hn
  · intro e h hu hn
    rw [hu]
    exact downTrace_abort_run _ _ _ e (reaches_cases _ _ h) hn
  · intro e h hu h1 _
    exact upTrace_abort_last _ _ _ _ e (reaches_cases _ _ h) hu h1
  · intro e h hu h1 hn
    exact downTrace_abort_last _ _ _ _ e (reaches_cases _ _ h) hu h1 hn
  · intro e h hu hn
    exact upTrace_goes_on _ _ _ _ (reaches_cases _ _ h) (by rw [hu]; simpa [goesOn] using hn)
  · intro e h hu hn
    exact downTrace_goes_on _ _ _ _ (reaches_cases _ _ h) (by rw [hu]; simpa [goesOn] using hn)

/-- C9 on an unreachable database, an empty source directory, a dirty database,
a connection lost before the second query, and an engine answering
`ErrNoChange`. -/
theorem abort_on_error_witness :
    AbortedAfter (Up Scripted.engine Sample.unreachable).trace
      (Event.version ⟨0, false, some (GoError.other "connection refused")⟩)
      ⟨Level.error, "Error getting migration version",
        some (GoError.other "connection refused"), none⟩ ∧
    AbortedAfter (Down Reference.engine Sample.emptySource).trace
      (Event.steps 1 (some Reference.ErrNotExist))
      ⟨Level.error, "Error initializing first migration", some Reference.ErrNotExist, none⟩ ∧
    AbortedAfter (Up Reference.engine Sample.dirtyOne).trace
      (Event.up (some Reference.ErrDirty))
      ⟨Level.error, "Error migrating up", some Reference.ErrDirty, none⟩ ∧
    AbortedAfter (Down Reference.engine Sample.dirtyOne).trace
      (Event.down (some Reference.ErrDirty))
      ⟨Level.error, "Error migrating down", some Reference.ErrDirty, none⟩ ∧
    AbortedAfter (Up Scripted.engine Sample.lostConnection).trace
      (Event.version ⟨0, false, some (GoError.other "connection lost")⟩)
      ⟨Level.error, "Error getting new migration version",
        some (GoError.other "connection lost"), none⟩ ∧
    AbortedAfter (Down Scripted.engine Sample.lostConnection).trace
      (Event.version ⟨0, false, some (GoError.other "connection lost")⟩)
      ⟨Level.error, "Error getting new migration version",
        some (GoError.other "connection lost"), none⟩ ∧
    "Error migrating up" ∉ messages (Up Scripted.engine Sample.idle).trace ∧
    "Error migrating down" ∉ messages (Down Scripted.engine Sample.idle).trace :=
  ⟨((abort_on_error Scripted.engine Sample.unreachable).1
      (GoError.other "connection refused") (by decide) (by decide)).1,
   ((abort_on_error Reference.engine Sample.emptySource).2.1
      Reference.ErrNotExist (by decide) (by decide)).2,
   (abort_on_error Reference.engine Sample.dirtyOne).2.2.1
      Reference.ErrDirty (by decide) (by decide) (by decide),
   (abort_on_error Reference.engine Sample.dirtyOne).2.2.2.1
      Reference.ErrDirty (by decide) (by decide) (by decide),
   (abort_on_error Scripted.engine Sample.lostConnection).2.2.2.2.1
      (GoError.other "connection lost") (by decide) (by decide) (by decide) (by decide),
   (abort_on_error Scripted.engine Sample.lostConnection).2.2.2.2.2.1
      (GoError.other "connection lost") (by decide) (by decide) (by decide) (by decide),
   ((abort_on_error Scripted.engine Sample.idle).2.2.2.2.2.2.1
      GoError.ErrNoChange (by decide) (by decide) (by decide)).2,
   ((abort_on_error Scripted.engine Sample.idle).2.2.2.2.2.2.2
      GoError.ErrNoChange (by decide) (by decide) (by decide)).2⟩

/-! ## C10: the direction flag -/

/-- C10 fails as stated: after a successful bootstrap and handler
construction, on the command line `-x`, in which `-d` is absent, `flag.Parse`
ends the process and `main` calls neither `Up` nor `Down`; on `-d=maybe`, in
which `-d` is set, it calls neither as well. -/
theorem main_routes_by_flag_counterexample :
    (bootstrap (Sample.world ["-x"])).2 = some (Sample.fullEnv, Sample.fullApp) ∧
    (Migrate.NewMigrateHandler (Sample.world ["-x"]) Sample.fullEnv "meetnrun").2 = none ∧
    Migrate.namesFlag "d" "-x" = false ∧
    runs (Migrate.main (Sample.world ["-x"]) Reference.engine Sample.fresh).trace = [] ∧
    calls (Migrate.main (Sample.world ["-x"]) Reference.engine Sample.fresh).trace = [] ∧
    (Migrate.main (Sample.world ["-x"]) Reference.engine Sample.fresh).exit =
      Exit.flagExit ∧
    Migrate.namesFlag "d" "-d=maybe" = true ∧
    runs (Migrate.main (Sample.world ["-d=maybe"]) Reference.engine Sample.fresh).trace =
      [] := by
  decide

/-- C10, as the code has it. After a successful bootstrap and handler
construction, on a command line that `flag.Parse` accepts, `main` of the
migration runner calls exactly one handler operation, `Down` (and not `Up`)
when the value of the flag `d` is true and `Up` (and not `Down`) when it is
false, and what follows the flag parsing is the run of that operation. The
value is the default, false, and `Up` is called, when no argument reads as
the flag `d`, as on the empty command line; `Down` is called when the first
argument is `-d` and no later argument reads as the flag. On a command line
that `flag.Parse` does not accept the process ends there and neither
operation is called, nor the engine touched. -/
theorem main_routes_by_flag (w : World) (E : Engine σ) (s : σ)
    (env : Environ) (app : App)
    (hb : (bootstrap w).2 = some (env, app))
    (hc : (Migrate.NewMigrateHandler w env app.MeetNRunDatabaseDatabase).2 = none) :
    (∀ b, Migrate.flagBool "d" false w.args = Migrate.Parsed.value b →
      runs (Migrate.main w E s).trace =
        [if b = true then Direction.down else Direction.up] ∧
      (Migrate.main w E s).exit = Exit.normal) ∧
    (Migrate.flagBool "d" false w.args = Migrate.Parsed.value true →
      (Migrate.main w E s).trace =
        (bootstrap w).1 ++ (Migrate.NewMigrateHandler w env app.MeetNRunDatabaseDatabase).1 ++
          [Event.flagParse, Event.run Direction.down] ++ (Down E s).trace ∧
      (Migrate.main w E s).engine = (Down E s).engine) ∧
    (Migrate.flagBool "d" false w.args = Migrate.Parsed.value false →
      (Migrate.main w E s).trace =
        (bootstrap w).1 ++ (Migrate.NewMigrateHandler w env app.MeetNRunDatabaseDatabase).1 ++
          [Event.flagParse, Event.run Direction.up] ++ (Up E s).trace ∧
      (Migrate.main w E s).engine = (Up E s).engine) ∧
    (Migrate.flagBool "d" false w.args = Migrate.Parsed.exit →
      runs (Migrate.main w E s).trace = [] ∧
      calls (Migrate.main w E s).trace = [] ∧
      (Migrate.main w E s).exit = Exit.flagExit ∧
      (Migrate.main w E s).engine = s) ∧
    (∀ b, Migrate.flagBool "d" false w.args = Migrate.Parsed.value b →
      (∀ a ∈ w.args, Migrate.namesFlag "d" a = false) →
      runs (Migrate.main w E s).trace = [Direction.up]) ∧
    (∀ b rest, w.args = "-d" :: rest →
      Migrate.flagBool "d" false w.args = Migrate.Parsed.value b →
      (∀ a ∈ rest, Migrate.namesFlag "d" a = false) →
      runs (Migrate.main w E s).trace = [Direction.down]) ∧
    (w.args = [] → runs (Migrate.main w E s).trace = [Direction.up]) := by
  have hbw := bootstrap_ok w env app hb
  have hplain : runs (Migrate.NewMigrateHandler w env app.MeetNRunDatabaseDatabase).1 = [] ∧
      calls (Migrate.NewMigrateHandler w env app.MeetNRunDatabaseDatabase).1 = [] := by
    unfold Migrate.NewMigrateHandler
    rcases w.withInstanceErr with _ | e1 <;> rcases w.newInstanceErr with _ | e2 <;>
      simp [runs, calls, Event.call?, logError]
  obtain ⟨evs2, hnw⟩ : ∃ evs2,
      Migrate.NewMigrateHandler w env app.MeetNRunDatabaseDatabase = (evs2, none) :=
    ⟨_, Prod.ext rfl hc⟩
  rw [hnw] at hplain
  simp only at hplain
  have htrue : Migrate.flagBool "d" false w.args = Migrate.Parsed.value true →
      runs (Migrate.main w E s).trace = [Direction.down] ∧
      (Migrate.main w E s).exit = Exit.normal ∧
      (Migrate.main w E s).trace =
        (bootstrap w).1 ++ (Migrate.NewMigrateHandler w env app.MeetNRunDatabaseDatabase).1 ++
          [Event.flagParse, Event.run Direction.down] ++ (Down E s).trace ∧
      (Migrate.main w E s).engine = (Down E s).engine := by
    intro hf
    simp only [Migrate.main, hbw, hnw, hf, runs_append, hplain.1, Down_trace_eq,
      (downTrace_plain _ _ _ _).1]
    simp [runs]
  have hfalse : Migrate.flagBool "d" false w.args = Migrate.Parsed.value false →
      runs (Migrate.main w E s).trace = [Direction.up] ∧
      (Migrate.main w E s).exit = Exit.normal ∧
      (Migrate.main w E s).trace =
        (bootstrap w).1 ++ (Migrate.NewMigrateHandler w env app.MeetNRunDatabaseDatabase).1 ++
          [Event.flagParse, Event.run Direction.up] ++ (Up E s).trace ∧
      (Migrate.main w E s).engine = (Up E s).engine := by
    intro hf
    simp only [Migrate.main, hbw, hnw, hf, runs_append, hplain.1, Up_trace_eq,
      (upTrace_plain _ _ _ _).1]
    simp [runs]
  have hvalue : ∀ b, Migrate.flagBool "d" false w.args = Migrate.Parsed.value b →
      runs (Migrate.main w E s).trace =
        [if b = true then Direction.down else Direction.up] ∧
      (Migrate.main w E s).exit = Exit.normal := by
    intro b hf
    cases b with
    | true => simpa using ⟨(htrue hf).1, (htrue hf).2.1⟩
    | false => simpa using ⟨(hfalse hf).1, (hfalse hf).2.1⟩
  refine ⟨hvalue, fun hf => (htrue hf).2.2, fun hf => (hfalse hf).2.2, ?_, ?_, ?_, ?_⟩
  · intro hf
    simp only [Migrate.main, hbw, hnw, hf, runs_append, calls_append, hplain.1, hplain.2]
    simp [runs, calls, Event.call?]
  · intro b hf habs
    have hbf := flagBool_absent "d" false b w.args habs hf
    subst hbf
    exact (hfalse hf).1
  · intro b rest hargs hf habs
    rw [hargs] at hf
    have hbt := flagBool_set false b rest habs hf
    subst hbt
    rw [← hargs] at hf
    exact (htrue hf).1
  · intro hargs
    refine (hfalse ?_).1
    rw [hargs]
    rfl

/-- C10 as amended, with the command line `-d`, with the empty command line and
with the command line `-x`. -/
theorem main_routes_by_flag_witness :
    (bootstrap (Sample.world ["-d"])).2 = some (Sample.fullEnv, Sample.fullApp) ∧
    Migrate.flagBool "d" false ["-d"] = Migrate.Parsed.value true ∧
    runs (Migrate.main (Sample.world ["-d"]) Reference.engine Sample.atTwo).trace =
      [Direction.down] ∧
    runs (Migrate.main (Sample.world []) Reference.engine Sample.atTwo).trace =
      [Direction.up] ∧
    Migrate.flagBool "d" false ["-x"] = Migrate.Parsed.exit ∧
    runs (Migrate.main (Sample.world ["-x"]) Reference.engine Sample.atTwo).trace = [] :=
  ⟨by decide, by decide,
   (main_routes_by_flag (Sample.world ["-d"]) Reference.engine Sample.atTwo
      Sample.fullEnv Sample.fullApp (by decide) (by decide)).2.2.2.2.2.1
      true [] rfl (by decide) (by decide),
   (main_routes_by_flag (Sample.world []) Reference.engine Sample.atTwo
      Sample.fullEnv Sample.fullApp (by decide) (by decide)).2.2.2.2.2.2 rfl,
   by decide,
   ((main_routes_by_flag (Sample.world ["-x"]) Reference.engine Sample.atTwo
      Sample.fullEnv Sample.fullApp (by decide) (by decide)).2.2.2.1 (by decide)).1⟩

end MeetNRun
